import Mathlib

/-!
Verification of the drawing/viewport core of the `shapes` repository.

The embedding models, over `ℚ`:
* the speed-sensitive stroke-width computation (`calculateStrokeWidth`,
  `src/unnamed/part_004` lines 454-465),
* the stamp-based brush renderer (`segmentStamps`, the live stamping loops in
  `handleMouseMove`/`handleTouchMove` and the redraw loop of the redraw
  `useEffect`, `src/unnamed/part_004` lines 409-433),
* the focal-point-preserving zoom/offset arithmetic of the drawing canvas
  (`src/unnamed/part_004`, convention `screen = containerLeft + (c + offset) * zoom`)
  and of the gallery (`src/src/components/Gallery.tsx`, convention
  `screen = offset + c * zoom`),
* the full event-driven state machine of the drawing component in
  `src/unnamed/part_004` (mouse, touch, wheel, native gesture, reset, submit),
  and the touch handlers of the gallery.

Conventions of the embedding:
* JavaScript numbers are modelled as rationals; `Math.sqrt` is modelled by
  `Rat.sqrt`, which agrees with the real square root on perfect squares (every
  concrete input used in a theorem below is a perfect square) and satisfies
  `Rat.sqrt 0 = 0` and `Rat.sqrt q ≥ 0`, the only facts the general theorems rely on.
* React state writes (`setX`) are modelled by the post-event state; reads of
  state variables inside a handler see the pre-event values (stale closure
  reads), while `useRef` cells are read and written synchronously.  Between two
  events all pending state updates are flushed.
* Event parameters that the browser supplies (positions relative to the canvas
  bounding rectangle, `Date.now()`, `Math.random()` draws) are carried on the
  events themselves.
* The random stamp-position jitter of `drawSvgStamp` is cosmetic and the claims
  quantify over jitter-disabled behavior; a stamp is recorded as its nominal
  center and stroke width.  The brush sprite is taken as loaded.
-/

namespace Shapes

/-- A point, `{x, y}` (canvas or screen space depending on use site). -/
@[ext] structure Point where
  x : ℚ
  y : ℚ
deriving DecidableEq, Repr

/-- One brush stamp: nominal center position and the stroke width it is scaled
by (`scale = width / BASE_STROKE_WIDTH` in `drawSvgStamp`). -/
@[ext] structure Stamp where
  pos : Point
  width : ℚ
deriving DecidableEq, Repr

/-- Euclidean distance, `Math.sqrt(dx*dx + dy*dy)`, with `Math.sqrt` modelled by
`Rat.sqrt` (exact on perfect squares; `euclid p p = 0`). -/
def euclid (a b : Point) : ℚ :=
  Rat.sqrt ((b.x - a.x) ^ 2 + (b.y - a.y) ^ 2)

/-- The pre-jitter part of `calculateStrokeWidth` (src/unnamed/part_004 lines
454-465 and the identical copy in DrawingCanvas.tsx lines 240-251):
`speed = distance / timeDelta`, `normalizedSpeed = min(speed / 2, 1)`,
`width = BASE_STROKE_WIDTH * (1 - normalizedSpeed * 0.4)` with
`BASE_STROKE_WIDTH = 10` and `0.4 = 4/10`. -/
def preJitterWidth (distance timeDelta : ℚ) : ℚ :=
  10 * (1 - min (distance / timeDelta / 2) 1 * (4 / 10))

/-- The full stroke-width computation: early return of `BASE_STROKE_WIDTH = 10`
when `timeDelta == 0`, otherwise the pre-jitter width plus the random variation
`(Math.random() - 0.5) * 2` (the `Math.random()` draw, a value in `[0, 1)`, is
passed in as `rand`), clamped by
`Math.max(MIN_STROKE_WIDTH, Math.min(MAX_STROKE_WIDTH, width + randomVariation))`
with `MIN_STROKE_WIDTH = 6`, `MAX_STROKE_WIDTH = 14`. -/
def calculateStrokeWidth (distance timeDelta rand : ℚ) : ℚ :=
  if timeDelta = 0 then 10
  else max 6 (min 14 (preJitterWidth distance timeDelta + (rand - 1 / 2) * 2))

/-! ## Viewport transform arithmetic

The gallery (Gallery.tsx) uses the CSS transform `translate(offset) scale(zoom)`
with origin top-left, so `screen = offset + c * zoom`.  The drawing component
(src/unnamed/part_004) uses `scale(zoom) translate(offset)` with origin `0 0` on
a container positioned at `left = top = containerLeft = -canvasSize/3`, so
`screen = containerLeft + (c + offset) * zoom`. -/

/-- Zoom clamp of every gallery zoom update:
`Math.max(0.1, Math.min(2, x))` (Gallery.tsx lines 293, 345, 427). -/
def galleryClampZoom (x : ℚ) : ℚ := max (1 / 10) (min 2 x)

/-- Zoom clamp of every drawing-canvas zoom update:
`Math.max(MIN_ZOOM, Math.min(MAX_ZOOM, x))` with `MIN_ZOOM = 0.3`,
`MAX_ZOOM = 4` (src/unnamed/part_004 lines 51-52, 289, 606, 741). -/
def drawClampZoom (x : ℚ) : ℚ := max (3 / 10) (min 4 x)

/-- Gallery screen position of canvas point `c`: `offset + c * zoom`. -/
def galleryScreenOf (off : Point) (zoom : ℚ) (c : Point) : Point :=
  ⟨off.x + c.x * zoom, off.y + c.y * zoom⟩

/-- Gallery focal-point offset recomputation (Gallery.tsx lines 295-299 in
`handleWheelEvent`, identically lines 350-354 in `handleGestureChange`):
`canvas = (mouse - offset) / zoom`, `newOffset = mouse - canvas * newZoom`. -/
def galleryZoomAtOffset (zoom : ℚ) (off focal : Point) (newZoom : ℚ) : Point :=
  ⟨focal.x - (focal.x - off.x) / zoom * newZoom,
   focal.y - (focal.y - off.y) / zoom * newZoom⟩

/-- Gallery two-finger pinch offset recomputation (Gallery.tsx lines 432-437):
`canvas = (prevCenter - offset) / zoom`, `newOffset = center - canvas * newZoom`. -/
def galleryPinchOffset (zoom : ℚ) (off prevC newC : Point) (newZoom : ℚ) : Point :=
  ⟨newC.x - (prevC.x - off.x) / zoom * newZoom,
   newC.y - (prevC.y - off.y) / zoom * newZoom⟩

/-- Drawing-canvas screen position of canvas point `c`:
`containerLeft + (c + offset) * zoom` (src/unnamed/part_004 lines 301-302). -/
def drawScreenOf (containerLeft : ℚ) (off : Point) (zoom : ℚ) (c : Point) : Point :=
  ⟨containerLeft + (c.x + off.x) * zoom, containerLeft + (c.y + off.y) * zoom⟩

/-- Drawing-canvas focal-point offset recomputation (src/unnamed/part_004 lines
304-310 in `handleGestureChange`, identically lines 754-760 in `handleWheel`):
`canvas = (g - containerLeft) / zoom - offset`,
`newOffset = (g - containerLeft) / newZoom - canvas`. -/
def drawZoomAtOffset (containerLeft zoom : ℚ) (off focal : Point) (newZoom : ℚ) : Point :=
  ⟨(focal.x - containerLeft) / newZoom - ((focal.x - containerLeft) / zoom - off.x),
   (focal.y - containerLeft) / newZoom - ((focal.y - containerLeft) / zoom - off.y)⟩

/-- Drawing-canvas two-finger pinch offset recomputation (src/unnamed/part_004
lines 615-621): the canvas point under the previous pinch center is placed
under the new pinch center at the new zoom. -/
def drawPinchOffset (containerLeft zoom : ℚ) (off prevC newC : Point) (newZoom : ℚ) : Point :=
  ⟨(newC.x - containerLeft) / newZoom - ((prevC.x - containerLeft) / zoom - off.x),
   (newC.y - containerLeft) / newZoom - ((prevC.y - containerLeft) / zoom - off.y)⟩

/-- Pre-clamp zoom of the drawing-canvas ctrl/cmd wheel handler
(src/unnamed/part_004 lines 739-741): `zoomSensitivity = 0.001`,
`zoomDelta = -deltaY * zoomSensitivity`, `zoom + zoomDelta`. -/
def drawWheelPre (zoom deltaY : ℚ) : ℚ := zoom + -deltaY * (1 / 1000)

/-- Drawing-canvas ctrl/cmd wheel zoom (src/unnamed/part_004 line 741). -/
def drawWheelZoom (zoom deltaY : ℚ) : ℚ := drawClampZoom (drawWheelPre zoom deltaY)

/-! ## Gallery grid layout and fit-to-viewport initial zoom (Gallery.tsx) -/

/-- Model of `shapesPerRow = isMobile ? 3 : 5` (Gallery.tsx lines 5-6, 177). -/
def galleryShapesPerRow (mobile : Bool) : ℕ := if mobile then 3 else 5

/-- Model of `numRows = Math.ceil(n / shapesPerRow)` (Gallery.tsx line 178). -/
def galleryNumRows (n : ℕ) (mobile : Bool) : ℕ :=
  (n + (galleryShapesPerRow mobile - 1)) / galleryShapesPerRow mobile

/-- Model of `totalWidth = shapesPerRow * 600 + (shapesPerRow - 1) * 40`
(`DRAWING_DISPLAY_SIZE = 600`, `GAP = 40`; Gallery.tsx line 179). -/
def galleryTotalWidth (mobile : Bool) : ℚ :=
  galleryShapesPerRow mobile * 600 + (galleryShapesPerRow mobile - 1 : ℕ) * 40

/-- Model of `totalHeight = numRows * 600 + (numRows - 1) * 40` (Gallery.tsx line 180). -/
def galleryTotalHeight (n : ℕ) (mobile : Bool) : ℚ :=
  galleryNumRows n mobile * 600 + (galleryNumRows n mobile - 1 : ℕ) * 40

/-- The fit-to-viewport initial zoom of the gallery (Gallery.tsx lines 242-256, run
only when `n > 0`): `padding = 80`, `zoomX = (innerWidth - 160) / totalWidth`,
`zoomY = (innerHeight - 160) / totalHeight`, `Math.min(zoomX, zoomY, 1)`. -/
def galleryInitialZoom (n : ℕ) (innerWidth innerHeight : ℚ) (mobile : Bool) : ℚ :=
  min (min ((innerWidth - 2 * 80) / galleryTotalWidth mobile)
        ((innerHeight - 2 * 80) / galleryTotalHeight n mobile)) 1

/-! ## Brush stamping -/

/-- Linear interpolation along a segment:
`x = prev.x + (cur.x - prev.x) * t`, same for `y`. -/
def lerp (a b : Point) (t : ℚ) : Point :=
  ⟨a.x + (b.x - a.x) * t, a.y + (b.y - a.y) * t⟩

/-- Model of `stampCount = Math.max(1, Math.floor(distance / stampSpacing))` with
`stampSpacing = 8` (src/unnamed/part_004 lines 208-209, 423-424, 682-683,
863-864). -/
def stampCount (distance : ℚ) : ℕ := max 1 (Int.floor (distance / 8)).toNat

/-- The stamps emitted along one segment: the loop
`for (i = 0; i <= stampCount; i++) drawSvgStamp(ctx, lerp(t = i/stampCount), w)`
shared verbatim by the live drawing handlers and the redraw loops. -/
def segmentStamps (a b : Point) (w : ℚ) : List Stamp :=
  (List.range (stampCount (euclid a b) + 1)).map
    (fun i => ⟨lerp a b ((i : ℚ) / (stampCount (euclid a b) : ℚ)), w⟩)

/-- A recorded path: `{ points: Point[], strokeWidth: number }`
(src/unnamed/part_004 lines 9-12, 40). -/
@[ext] structure DrawPath where
  points : List Point
  strokeWidth : ℚ
deriving DecidableEq, Repr

/-- Append a point to the last stored path and overwrite its `strokeWidth`
(src/unnamed/part_004 lines 676-680, 853-857: guarded by
`drawingPathsRef.current.length > 0`). -/
def appendToLast : List DrawPath → Point → ℚ → List DrawPath
  | [], _, _ => []
  | [p], pos, w => [⟨p.points ++ [pos], w⟩]
  | p :: q :: ps, pos, w => p :: appendToLast (q :: ps) pos w

/-- The segment part of the redraw loop: stamps for consecutive point pairs,
all at the single stored `strokeWidth` of the path. -/
def redrawSegs (prev : Point) (rest : List Point) (w : ℚ) : List Stamp :=
  match rest with
  | [] => []
  | q :: qs => segmentStamps prev q w ++ redrawSegs q qs w

/-- The redraw routine for one stored path (the redraw `useEffect`,
src/unnamed/part_004 lines 409-433, and the identical resize redraw lines
195-219): skip empty paths, stamp the first point at `path.strokeWidth`, then
stamp every segment at `path.strokeWidth`. -/
def redrawPathStamps (p : DrawPath) : List Stamp :=
  match p.points with
  | [] => []
  | p0 :: rest => ⟨p0, p.strokeWidth⟩ :: redrawSegs p0 rest p.strokeWidth

/-- Model of `redrawAll`: replay the whole path history in original order. -/
def redrawStamps (paths : List DrawPath) : List Stamp :=
  (paths.map redrawPathStamps).flatten

/-- Model of `getTouchCenter` (src/unnamed/part_004 lines 506-511):
the midpoint of the two touches. -/
def touchCenter (t1 t2 : Point) : Point :=
  ⟨(t1.x + t2.x) / 2, (t1.y + t2.y) / 2⟩

/-- Model of `getTouchDistance` (src/unnamed/part_004 lines 499-503): the Euclidean
distance between the two touch positions. -/
def touchDistance (t1 t2 : Point) : ℚ := euclid t1 t2

/-! ## The event-driven state machine of the drawing component (src/unnamed/part_004)

Event positions are given relative to the canvas bounding rectangle (the code
computes `clientX - rect.left` / `clientY - rect.top`); `Date.now()` readings and
`Math.random()` draws are event parameters. -/

/-- Layout constants fixed for a session: the container position
`containerLeft = -canvasSize / 3`, the initial centered offset computed by the
centering `useEffect` (lines 112-144), and the mobile flag. -/
structure Cfg where
  containerLeft : ℚ
  initialOffset : Point
  isMobile : Bool

/-- Model of `isMobile ? 0.8 : 1` (src/unnamed/part_004 lines 28, 929). -/
def defaultZoom (cfg : Cfg) : ℚ := if cfg.isMobile then 4 / 5 else 1

/-- The component state: React state variables (`isDrawing`, `isPanning`,
`zoom`, `canvasOffset`, `moveCount`, `isSubmitting`) and refs
(`drawingPathsRef`, `pendingTouchRef`, `lastPointRef`, `lastTimeRef`,
`lastTouchDistanceRef`, `lastTouchCenterRef`, `lastGestureScaleRef`).
`stamps` is the log of `drawSvgStamp` calls, i.e. the live canvas raster. -/
structure DrawState where
  isDrawing : Bool
  isPanning : Bool
  zoom : ℚ
  offset : Point
  moveCount : ℕ
  paths : List DrawPath
  pending : Option Point
  lastPoint : Option Point
  lastTime : ℚ
  lastTouchDistance : Option ℚ
  lastTouchCenter : Option Point
  lastGestureScale : ℚ
  isSubmitting : Bool
  stamps : List Stamp
deriving DecidableEq, Repr

/-- Initial state after mount and the centering effect. -/
def initState (cfg : Cfg) : DrawState :=
  { isDrawing := false, isPanning := false, zoom := defaultZoom cfg
    offset := cfg.initialOffset, moveCount := 0, paths := []
    pending := none, lastPoint := none, lastTime := 0
    lastTouchDistance := none, lastTouchCenter := none
    lastGestureScale := 1, isSubmitting := false, stamps := [] }

/-- The input events.  Wheel events carry the ctrl/cmd-modifier flag; touch
events are split by `e.touches.length`. -/
inductive Ev where
  | mouseDown (client : Point) (now : ℚ)
  | mouseMove (client : Point) (now rand : ℚ)
  | mouseUp
  | mouseLeave
  | touchStartOne (client : Point) (now : ℚ)
  | touchStartTwo (t1 t2 : Point)
  | touchMoveOne (client : Point) (now rand : ℚ)
  | touchMoveTwo (t1 t2 : Point)
  | touchEnd
  | wheel (deltaX deltaY : ℚ) (ctrl : Bool) (client : Point)
  | gestureStart (scale : ℚ)
  | gestureChange (scale : ℚ) (client : Point)
  | gestureEnd
  | resetClick
  | submitClick
deriving DecidableEq, Repr

/-- Model of `getMousePos` (lines 437-451) and the identical touch-position computation
(lines 553-556, 656-659): position relative to the canvas rectangle, divided by
the current zoom. -/
def eventPos (st : DrawState) (client : Point) : Point :=
  ⟨client.x / st.zoom, client.y / st.zoom⟩

/-- Model of `handleMouseDown` (lines 778-814): rejected when `moveCount >= 5`;
otherwise start drawing, record the start point and time, increment the move
count, push a fresh single-point path at `BASE_STROKE_WIDTH`, and stamp once. -/
def handleMouseDown (st : DrawState) (client : Point) (now : ℚ) : DrawState :=
  if st.moveCount ≥ 5 then st
  else
    let pos := eventPos st client
    { st with isDrawing := true, lastPoint := some pos, lastTime := now
              moveCount := st.moveCount + 1
              paths := st.paths ++ [⟨[pos], 10⟩]
              stamps := st.stamps ++ [⟨pos, 10⟩] }

/-- The stroke-extension step shared verbatim by `handleMouseMove` (lines
839-876) and the single-finger part of `handleTouchMove` (lines 661-694): with
a recorded last point, compute the speed-derived width, append the point to
the current path (overwriting its `strokeWidth`), stamp along the segment, and
update the last point/time refs. -/
def extendStroke (st : DrawState) (pos : Point) (now rand : ℚ) : DrawState :=
  match st.lastPoint with
  | none => st
  | some lp =>
    let timeDelta := now - st.lastTime
    let distance := euclid lp pos
    let w := calculateStrokeWidth distance timeDelta rand
    { st with paths := appendToLast st.paths pos w
              stamps := st.stamps ++ segmentStamps lp pos w
              lastPoint := some pos, lastTime := now }

/-- Model of `handleMouseMove` (lines 817-877): only draws while `isDrawing`. -/
def handleMouseMove (st : DrawState) (client : Point) (now rand : ℚ) : DrawState :=
  if st.isDrawing = false then st
  else extendStroke st (eventPos st client) now rand

/-- The final stamp of `handleMouseUp`/`handleMouseLeave` (lines 883-892,
901-910): one stamp at the last point, at `BASE_STROKE_WIDTH`, if a stroke was
active. -/
def finishStroke (st : DrawState) : DrawState :=
  match st.isDrawing, st.lastPoint with
  | true, some lp => { st with stamps := st.stamps ++ [⟨lp, 10⟩] }
  | _, _ => st

/-- Model of `handleMouseUp` (lines 880-897): stop panning, stamp the final point, stop
drawing, clear the last point/time. -/
def handleMouseUp (st : DrawState) : DrawState :=
  { finishStroke st with
    isPanning := false, isDrawing := false, lastPoint := none, lastTime := 0 }

/-- Model of `handleMouseLeave` (lines 900-915): like `handleMouseUp` but leaves
`isPanning` untouched. -/
def handleMouseLeave (st : DrawState) : DrawState :=
  { finishStroke st with isDrawing := false, lastPoint := none, lastTime := 0 }

/-- Model of `handleTouchStart`, two-finger branch (lines 517-540): cancel any pending
touch, stop active drawing, enter panning mode and record the inter-finger
distance and center. -/
def handleTouchStartTwo (st : DrawState) (t1 t2 : Point) : DrawState :=
  { st with pending := none, isDrawing := false, isPanning := true
            lastTouchDistance := some (touchDistance t1 t2)
            lastTouchCenter := some (touchCenter t1 t2) }

/-- Model of `handleTouchStart`, single-finger branch (lines 541-568): ignored while
panning or when the move budget is exhausted; otherwise store a pending touch
(no path, no stamp yet) and the last point/time. -/
def handleTouchStartOne (st : DrawState) (client : Point) (now : ℚ) : DrawState :=
  if st.isPanning then st
  else if st.moveCount ≥ 5 then st
  else
    let pos := eventPos st client
    { st with pending := some pos, lastPoint := some pos, lastTime := now }

/-- Model of `handleTouchMove`, two-finger branch (lines 575-630): cancel pending, stop
drawing; if not yet panning or tracking refs are null, initialize tracking and
return; otherwise ratio-zoom by `distance / prevDistance` (no zero-distance
check) and recompute the offset from the previous to the new center. -/
def handleTouchMoveTwo (cfg : Cfg) (st : DrawState) (t1 t2 : Point) : DrawState :=
  let st0 := { st with pending := none, isDrawing := false }
  match st.isPanning, st.lastTouchDistance, st.lastTouchCenter with
  | true, some prevDistance, some prevCenter =>
    let distance := touchDistance t1 t2
    let center := touchCenter t1 t2
    let newZoom := drawClampZoom (st.zoom * (distance / prevDistance))
    let newOffset := drawPinchOffset cfg.containerLeft st.zoom st.offset prevCenter center newZoom
    { st0 with zoom := newZoom, offset := newOffset
               lastTouchDistance := some distance, lastTouchCenter := some center }
  | _, _, _ =>
    { st0 with isPanning := true
               lastTouchDistance := some (touchDistance t1 t2)
               lastTouchCenter := some (touchCenter t1 t2) }

/-- Committing a pending touch: push a fresh single-point path at
`BASE_STROKE_WIDTH`, increment the move count (no budget re-check), stamp
once, clear the pending ref.  The first-move commit (lines 633-643) also
starts drawing (`startDrawing = true`); the touch-end tap commit (lines
700-710) does not touch `isDrawing`. -/
def commitPending (st : DrawState) (startDrawing : Bool) : DrawState :=
  match st.pending with
  | some ppos =>
    { st with isDrawing := startDrawing || st.isDrawing
              moveCount := st.moveCount + 1
              paths := st.paths ++ [⟨[ppos], 10⟩]
              stamps := st.stamps ++ [⟨ppos, 10⟩]
              pending := none }
  | none => st

/-- Model of `handleTouchMove`, single-finger branch (lines 631-695): commit a pending
touch, then — unless nothing is drawable — extend the current stroke exactly
like `handleMouseMove`.  The `!isDrawing` read in the guard is the stale
pre-event state value, while the paths ref is read after the commit. -/
def handleTouchMoveOne (st : DrawState) (client : Point) (now rand : ℚ) : DrawState :=
  if st.isPanning then st
  else
    let stc := commitPending st true
    if st.isDrawing = false ∧ stc.paths = [] then stc
    else extendStroke stc (eventPos st client) now rand

/-- Model of `handleTouchEnd` (lines 698-718): commit a never-committed pending touch as
a single dot, then clear all gesture/drawing tracking. -/
def handleTouchEnd (st : DrawState) : DrawState :=
  { commitPending st false with
    isPanning := false, isDrawing := false
    lastTouchDistance := none, lastTouchCenter := none
    lastPoint := none, lastTime := 0 }

/-- Model of `handleWheel` (lines 721-775): with ctrl/cmd, additive zoom
`zoom + (-deltaY * 0.001)` clamped, with the focal-point offset recomputation;
without modifier, pan by `delta / zoom`. -/
def handleWheel (cfg : Cfg) (st : DrawState) (deltaX deltaY : ℚ) (ctrl : Bool)
    (client : Point) : DrawState :=
  if ctrl then
    let newZoom := drawWheelZoom st.zoom deltaY
    let newOffset := drawZoomAtOffset cfg.containerLeft st.zoom st.offset client newZoom
    { st with zoom := newZoom, offset := newOffset }
  else
    { st with offset := ⟨st.offset.x - deltaX / st.zoom, st.offset.y - deltaY / st.zoom⟩ }

/-- Model of `handleGestureStart` (lines 267-275): record the reported scale. -/
def handleGestureStart (st : DrawState) (scale : ℚ) : DrawState :=
  { st with lastGestureScale := scale }

/-- Model of `handleGestureChange` (lines 277-319): multiplicative zoom by
`scale / lastGestureScale`, clamped, with focal-point offset recomputation. -/
def handleGestureChange (cfg : Cfg) (st : DrawState) (scale : ℚ) (client : Point) : DrawState :=
  let scaleDelta := scale / st.lastGestureScale
  let newZoom := drawClampZoom (st.zoom * scaleDelta)
  let newOffset := drawZoomAtOffset cfg.containerLeft st.zoom st.offset client newZoom
  { st with zoom := newZoom, offset := newOffset, lastGestureScale := scale }

/-- Model of `handleGestureEnd` (lines 321-326): reset the gesture scale to 1. -/
def handleGestureEnd (st : DrawState) : DrawState :=
  { st with lastGestureScale := 1 }

/-- Model of `handleReset` (lines 918-942): clear all paths, zero the move count, reset
zoom and offset to their initial values, clear the canvas.  It does not touch
`isDrawing`, `pending` or `lastPoint`. -/
def handleReset (cfg : Cfg) (st : DrawState) : DrawState :=
  { st with paths := [], moveCount := 0, zoom := defaultZoom cfg
            offset := cfg.initialOffset, stamps := [] }

/-- Model of `handleSubmit` (lines 945-956): rejected outright while `isSubmitting`;
otherwise only sets the in-flight flag (the export reads, never writes, the
drawing state). -/
def handleSubmit (st : DrawState) : DrawState :=
  if st.isSubmitting then st else { st with isSubmitting := true }

/-- One event step of the drawing component. -/
def step (cfg : Cfg) (st : DrawState) : Ev → DrawState
  | .mouseDown client now => handleMouseDown st client now
  | .mouseMove client now rand => handleMouseMove st client now rand
  | .mouseUp => handleMouseUp st
  | .mouseLeave => handleMouseLeave st
  | .touchStartOne client now => handleTouchStartOne st client now
  | .touchStartTwo t1 t2 => handleTouchStartTwo st t1 t2
  | .touchMoveOne client now rand => handleTouchMoveOne st client now rand
  | .touchMoveTwo t1 t2 => handleTouchMoveTwo cfg st t1 t2
  | .touchEnd => handleTouchEnd st
  | .wheel dx dy ctrl client => handleWheel cfg st dx dy ctrl client
  | .gestureStart scale => handleGestureStart st scale
  | .gestureChange scale client => handleGestureChange cfg st scale client
  | .gestureEnd => handleGestureEnd st
  | .resetClick => handleReset cfg st
  | .submitClick => handleSubmit st

/-- Run a list of events. -/
def run (cfg : Cfg) (st : DrawState) (evs : List Ev) : DrawState :=
  evs.foldl (step cfg) st

/-! ## The touch handlers of the gallery (Gallery.tsx lines 398-459) -/

/-- Gallery viewport/touch state: `isPanning`, `panStart`, `zoom`, `offset`
state variables and the `lastTouchDistanceRef`/`lastTouchCenterRef` refs. -/
structure GalState where
  isPanning : Bool
  panStart : Point
  zoom : ℚ
  offset : Point
  lastTouchDistance : Option ℚ
  lastTouchCenter : Option Point
deriving DecidableEq, Repr

/-- Model of `handleTouchStart`, two-finger branch (Gallery.tsx lines 399-402): record
the inter-finger distance and center. -/
def galTouchStartTwo (st : GalState) (t1 t2 : Point) : GalState :=
  { st with lastTouchDistance := some (touchDistance t1 t2)
            lastTouchCenter := some (touchCenter t1 t2) }

/-- Model of `handleTouchStart`, single-finger branch (Gallery.tsx lines 403-406). -/
def galTouchStartOne (st : GalState) (t : Point) : GalState :=
  { st with isPanning := true, panStart := t }

/-- Model of `handleTouchMove`, two-finger branch (Gallery.tsx lines 410-445): if the
tracking refs are null, initialize them and return; otherwise ratio-zoom by
`distance / prevDistance` (no zero-distance check) with the pinch offset
recomputation. -/
def galTouchMoveTwo (st : GalState) (t1 t2 : Point) : GalState :=
  match st.lastTouchDistance, st.lastTouchCenter with
  | some prevDistance, some prevCenter =>
    let distance := touchDistance t1 t2
    let center := touchCenter t1 t2
    let newZoom := galleryClampZoom (st.zoom * (distance / prevDistance))
    let newOffset := galleryPinchOffset st.zoom st.offset prevCenter center newZoom
    { st with zoom := newZoom, offset := newOffset
              lastTouchDistance := some distance, lastTouchCenter := some center }
  | _, _ =>
    { st with lastTouchDistance := some (touchDistance t1 t2)
              lastTouchCenter := some (touchCenter t1 t2) }

/-- Model of `handleTouchMove`, single-finger branch (Gallery.tsx lines 446-452):
pan by the delta from `panStart`. -/
def galTouchMoveOne (st : GalState) (t : Point) : GalState :=
  if st.isPanning then
    { st with offset := ⟨st.offset.x + (t.x - st.panStart.x), st.offset.y + (t.y - st.panStart.y)⟩
              panStart := t }
  else st

/-- Model of `handleTouchEnd` (Gallery.tsx lines 455-459). -/
def galTouchEnd (st : GalState) : GalState :=
  { st with isPanning := false, lastTouchDistance := none, lastTouchCenter := none }

/-! ## Discrete stroke gestures

One discrete stroke gesture is one pointer-down-to-up unit: a mouse press with
its moves and release, or a single-finger touch with its moves and lift.  Each
move carries the reported position, the `Date.now()` reading and the
`Math.random()` draw of that event. -/

inductive Gesture where
  | mouse (start : Point) (startTime : ℚ) (moves : List (Point × ℚ × ℚ))
  | touch (start : Point) (startTime : ℚ) (moves : List (Point × ℚ × ℚ))
deriving Repr

/-- The event sequence of one discrete gesture. -/
def gestureEvents : Gesture → List Ev
  | .mouse start startTime moves =>
    Ev.mouseDown start startTime ::
      moves.map (fun m => Ev.mouseMove m.1 m.2.1 m.2.2) ++ [Ev.mouseUp]
  | .touch start startTime moves =>
    Ev.touchStartOne start startTime ::
      moves.map (fun m => Ev.touchMoveOne m.1 m.2.1 m.2.2) ++ [Ev.touchEnd]

/-- Run a sequence of discrete gestures. -/
def runGestures (cfg : Cfg) (st : DrawState) (gs : List Gesture) : DrawState :=
  gs.foldl (fun s g => run cfg s (gestureEvents g)) st

/-- Touch events (used to state the touch-sequence invariant of §4.2). -/
def Ev.isTouch : Ev → Bool
  | .touchStartOne _ _ => true
  | .touchStartTwo _ _ => true
  | .touchMoveOne _ _ _ => true
  | .touchMoveTwo _ _ => true
  | .touchEnd => true
  | _ => false

/-! ## Basic lemmas -/

theorem euclid_self (a : Point) : euclid a a = 0 := by
  simp [euclid]

theorem euclid_nonneg (a b : Point) : 0 ≤ euclid a b :=
  Rat.sqrt_nonneg _

theorem galleryClampZoom_bounds (x : ℚ) :
    1 / 10 ≤ galleryClampZoom x ∧ galleryClampZoom x ≤ 2 :=
  ⟨le_max_left _ _, max_le (by norm_num) (min_le_left _ _)⟩

theorem drawClampZoom_bounds (x : ℚ) :
    3 / 10 ≤ drawClampZoom x ∧ drawClampZoom x ≤ 4 :=
  ⟨le_max_left _ _, max_le (by norm_num) (min_le_left _ _)⟩

theorem drawClampZoom_pos (x : ℚ) : 0 < drawClampZoom x :=
  lt_of_lt_of_le (by norm_num) (drawClampZoom_bounds x).1

theorem galleryClampZoom_pos (x : ℚ) : 0 < galleryClampZoom x :=
  lt_of_lt_of_le (by norm_num) (galleryClampZoom_bounds x).1

/-- The x/y-axis computation behind the gallery pinch/zoom offset update. -/
theorem gallery_axis_round_trip (zoom nz off pc nc c : ℚ) (hz : zoom ≠ 0)
    (h : off + c * zoom = pc) : nc - (pc - off) / zoom * nz + c * nz = nc := by
  have hpc : pc - off = c * zoom := by linarith
  rw [hpc, mul_div_assoc, div_self hz, mul_one]
  ring

/-- The x/y-axis computation behind the drawing-canvas pinch/zoom offset
update. -/
theorem draw_axis_round_trip (L zoom nz off pc nc c : ℚ) (hz : zoom ≠ 0)
    (hnz : nz ≠ 0) (h : L + (c + off) * zoom = pc) :
    L + (c + ((nc - L) / nz - ((pc - L) / zoom - off))) * nz = nc := by
  have hpc : (pc - L) / zoom = c + off := by
    field_simp
    linarith
  rw [hpc]
  field_simp
  ring

/-! ## C2: focal-point zoom stability -/

/-- C2: for every viewport state and every zoom update at a focal screen point
— gallery ctrl/cmd wheel and native gesture (`galleryZoomAtOffset`),
drawing-canvas native gesture and ctrl/cmd wheel (`drawZoomAtOffset`), and the
two-finger pinch updates of either surface — the canvas point that mapped to
the focal screen point before the update maps back to that same screen point
after it (exactly, over `ℚ`); for a pinch the canvas point under the previous
center is placed under the new center, so a pinch whose center does not move
preserves its focal point.  The statement holds for every new zoom value, in
particular for the clamped one. -/
theorem focal_point_zoom_stability (zoom newZoom containerLeft : ℚ)
    (off prevC newC focal c : Point) (hz : zoom ≠ 0) (hnz : newZoom ≠ 0) :
    (galleryScreenOf off zoom c = focal →
      galleryScreenOf (galleryZoomAtOffset zoom off focal newZoom) newZoom c = focal) ∧
    (drawScreenOf containerLeft off zoom c = focal →
      drawScreenOf containerLeft (drawZoomAtOffset containerLeft zoom off focal newZoom)
        newZoom c = focal) ∧
    (galleryScreenOf off zoom c = prevC →
      galleryScreenOf (galleryPinchOffset zoom off prevC newC newZoom) newZoom c = newC) ∧
    (drawScreenOf containerLeft off zoom c = prevC →
      drawScreenOf containerLeft (drawPinchOffset containerLeft zoom off prevC newC newZoom)
        newZoom c = newC) := by
  refine ⟨fun h => ?_, fun h => ?_, fun h => ?_, fun h => ?_⟩ <;>
    rw [Point.ext_iff] at h ⊢ <;>
    simp only [galleryScreenOf, galleryZoomAtOffset, galleryPinchOffset, drawScreenOf,
      drawZoomAtOffset, drawPinchOffset] at h ⊢
  · exact ⟨gallery_axis_round_trip zoom newZoom off.x focal.x focal.x c.x hz h.1,
      gallery_axis_round_trip zoom newZoom off.y focal.y focal.y c.y hz h.2⟩
  · exact ⟨draw_axis_round_trip containerLeft zoom newZoom off.x focal.x focal.x c.x hz hnz h.1,
      draw_axis_round_trip containerLeft zoom newZoom off.y focal.y focal.y c.y hz hnz h.2⟩
  · exact ⟨gallery_axis_round_trip zoom newZoom off.x prevC.x newC.x c.x hz h.1,
      gallery_axis_round_trip zoom newZoom off.y prevC.y newC.y c.y hz h.2⟩
  · exact ⟨draw_axis_round_trip containerLeft zoom newZoom off.x prevC.x newC.x c.x hz hnz h.1,
      draw_axis_round_trip containerLeft zoom newZoom off.y prevC.y newC.y c.y hz hnz h.2⟩

/-- Witness for C2: the §8 scenario — `zoom = 1`, `offset = (0,0)`, zooming by
factor 2 at `(200, 200)` keeps the canvas point `(200, 200)` under the cursor. -/
theorem focal_point_zoom_stability_witness :
    galleryScreenOf (galleryZoomAtOffset 1 ⟨0, 0⟩ ⟨200, 200⟩ 2) 2 ⟨200, 200⟩ = ⟨200, 200⟩ :=
  (focal_point_zoom_stability 1 2 0 ⟨0, 0⟩ ⟨0, 0⟩ ⟨0, 0⟩ ⟨200, 200⟩ ⟨200, 200⟩
    (by norm_num) (by norm_num)).1 (by norm_num [galleryScreenOf, Point.ext_iff])

/-! ## C3: stroke-width formula and bounds -/

/-- C3: `calculateStrokeWidth` returns `BASE_WIDTH = 10` when `timeDelta = 0`;
for `timeDelta > 0` and a nonnegative distance the pre-jitter width lies in
`[BASE_WIDTH * (1 - 0.4), BASE_WIDTH] = [6, 10]`; and for every jitter draw the
clamped returned width lies in `[MIN_WIDTH, MAX_WIDTH] = [6, 14]`. -/
theorem stroke_width_bounds :
    (∀ d r : ℚ, calculateStrokeWidth d 0 r = 10) ∧
    (∀ d t : ℚ, 0 ≤ d → 0 < t →
      6 ≤ preJitterWidth d t ∧ preJitterWidth d t ≤ 10) ∧
    (∀ d t r : ℚ, t ≠ 0 →
      6 ≤ calculateStrokeWidth d t r ∧ calculateStrokeWidth d t r ≤ 14) := by
  refine ⟨fun d r => by simp [calculateStrokeWidth], fun d t hd ht => ?_, fun d t r ht => ?_⟩
  · have h0 : 0 ≤ min (d / t / 2) 1 := le_min (by positivity) zero_le_one
    have h1 : min (d / t / 2) 1 ≤ 1 := min_le_right _ _
    unfold preJitterWidth
    constructor <;> nlinarith
  · rw [calculateStrokeWidth, if_neg ht]
    exact ⟨le_max_left _ _, max_le (by norm_num) (min_le_left _ _)⟩

/-- Witness for C3: at `distance = 1`, `timeDelta = 1` the pre-jitter width is
in `[6, 10]` and the jitter-free returned width is in `[6, 14]`. -/
theorem stroke_width_bounds_witness :
    (6 ≤ preJitterWidth 1 1 ∧ preJitterWidth 1 1 ≤ 10) ∧
    (6 ≤ calculateStrokeWidth 1 1 (1 / 2) ∧ calculateStrokeWidth 1 1 (1 / 2) ≤ 14) :=
  ⟨stroke_width_bounds.2.1 1 1 (by norm_num) (by norm_num),
   stroke_width_bounds.2.2 1 1 (1 / 2) (by norm_num)⟩

/-! ## C5: zoom bounds -/

theorem defaultZoom_bounds (cfg : Cfg) :
    3 / 10 ≤ defaultZoom cfg ∧ defaultZoom cfg ≤ 4 := by
  unfold defaultZoom
  split <;> norm_num

theorem extendStroke_zoom (st : DrawState) (pos : Point) (now rand : ℚ) :
    (extendStroke st pos now rand).zoom = st.zoom := by
  unfold extendStroke
  split <;> rfl

theorem commitPending_zoom (st : DrawState) (b : Bool) :
    (commitPending st b).zoom = st.zoom := by
  unfold commitPending
  split <;> rfl

theorem finishStroke_zoom (st : DrawState) : (finishStroke st).zoom = st.zoom := by
  unfold finishStroke
  split <;> rfl

/-- Every event step keeps the drawing-component zoom either unchanged, or
freshly clamped, or reset to the default. -/
theorem step_zoom_cases (cfg : Cfg) (st : DrawState) (ev : Ev) :
    (step cfg st ev).zoom = st.zoom ∨
    (∃ x, (step cfg st ev).zoom = drawClampZoom x) ∨
    (step cfg st ev).zoom = defaultZoom cfg := by
  cases ev with
  | mouseDown client now =>
    refine Or.inl ?_
    show (handleMouseDown st client now).zoom = st.zoom
    unfold handleMouseDown
    split <;> rfl
  | mouseMove client now rand =>
    refine Or.inl ?_
    show (handleMouseMove st client now rand).zoom = st.zoom
    unfold handleMouseMove
    split
    · rfl
    · exact extendStroke_zoom _ _ _ _
  | mouseUp => exact Or.inl (finishStroke_zoom st)
  | mouseLeave => exact Or.inl (finishStroke_zoom st)
  | touchStartOne client now =>
    refine Or.inl ?_
    show (handleTouchStartOne st client now).zoom = st.zoom
    unfold handleTouchStartOne
    split
    · rfl
    · split <;> rfl
  | touchStartTwo t1 t2 => exact Or.inl rfl
  | touchMoveOne client now rand =>
    refine Or.inl ?_
    show (handleTouchMoveOne st client now rand).zoom = st.zoom
    unfold handleTouchMoveOne
    split
    · rfl
    · dsimp only
      split
      · exact commitPending_zoom _ _
      · exact (extendStroke_zoom _ _ _ _).trans (commitPending_zoom _ _)
  | touchMoveTwo t1 t2 =>
    show (handleTouchMoveTwo cfg st t1 t2).zoom = st.zoom ∨
      (∃ x, (handleTouchMoveTwo cfg st t1 t2).zoom = drawClampZoom x) ∨
      (handleTouchMoveTwo cfg st t1 t2).zoom = defaultZoom cfg
    unfold handleTouchMoveTwo
    split
    · exact Or.inr (Or.inl ⟨_, rfl⟩)
    · exact Or.inl rfl
  | touchEnd => exact Or.inl (commitPending_zoom st false)
  | wheel dx dy ctrl client =>
    show (handleWheel cfg st dx dy ctrl client).zoom = st.zoom ∨
      (∃ x, (handleWheel cfg st dx dy ctrl client).zoom = drawClampZoom x) ∨
      (handleWheel cfg st dx dy ctrl client).zoom = defaultZoom cfg
    unfold handleWheel
    split
    · exact Or.inr (Or.inl ⟨_, rfl⟩)
    · exact Or.inl rfl
  | gestureStart scale => exact Or.inl rfl
  | gestureChange scale client => exact Or.inr (Or.inl ⟨_, rfl⟩)
  | gestureEnd => exact Or.inl rfl
  | resetClick => exact Or.inr (Or.inr rfl)
  | submitClick =>
    refine Or.inl ?_
    show (handleSubmit st).zoom = st.zoom
    unfold handleSubmit
    split <;> rfl

theorem step_zoom_bounds (cfg : Cfg) (st : DrawState) (ev : Ev)
    (h : 3 / 10 ≤ st.zoom ∧ st.zoom ≤ 4) :
    3 / 10 ≤ (step cfg st ev).zoom ∧ (step cfg st ev).zoom ≤ 4 := by
  rcases step_zoom_cases cfg st ev with hc | ⟨x, hc⟩ | hc <;> rw [hc]
  · exact h
  · exact drawClampZoom_bounds x
  · exact defaultZoom_bounds cfg

theorem run_zoom_bounds (cfg : Cfg) (evs : List Ev) (st : DrawState)
    (h : 3 / 10 ≤ st.zoom ∧ st.zoom ≤ 4) :
    3 / 10 ≤ (run cfg st evs).zoom ∧ (run cfg st evs).zoom ≤ 4 := by
  induction evs generalizing st with
  | nil => exact h
  | cons ev evs ih => exact ih (step cfg st ev) (step_zoom_bounds cfg st ev h)

theorem galleryTotalWidth_pos (m : Bool) : 0 < galleryTotalWidth m := by
  cases m <;> norm_num [galleryTotalWidth, galleryShapesPerRow]

theorem galleryNumRows_pos (n : ℕ) (m : Bool) (hn : 1 ≤ n) :
    1 ≤ galleryNumRows n m := by
  unfold galleryNumRows galleryShapesPerRow
  cases m <;> simp <;> omega

theorem galleryTotalHeight_pos (n : ℕ) (m : Bool) (hn : 1 ≤ n) :
    0 < galleryTotalHeight n m := by
  have h := galleryNumRows_pos n m hn
  have h1 : (1 : ℚ) ≤ (galleryNumRows n m : ℚ) := by exact_mod_cast h
  have h2 : (0 : ℚ) ≤ ((galleryNumRows n m - 1 : ℕ) : ℚ) := by positivity
  unfold galleryTotalHeight
  nlinarith

/-- C5 (amended): every zoom *update* of either surface clamps into its
configured bounds and the drawing-component zoom is bounded in `[0.3, 4]` in
every reachable state (initialization, wheel, pinch, native gesture, reset);
the fit-to-viewport initial zoom of the gallery, however, is only capped above by 1:
it is positive for nonempty galleries on viewports larger than the 2×80px
padding, but it is not clamped below (see the counterexample, where it falls
below the gallery bound `MIN_ZOOM = 0.1`). -/
theorem zoom_always_within_bounds :
    (∀ cfg evs, 3 / 10 ≤ (run cfg (initState cfg) evs).zoom ∧
      (run cfg (initState cfg) evs).zoom ≤ 4) ∧
    (∀ x, 1 / 10 ≤ galleryClampZoom x ∧ galleryClampZoom x ≤ 2) ∧
    (∀ n w h m, galleryInitialZoom n w h m ≤ 1) ∧
    (∀ n w h m, 1 ≤ n → 160 < w → 160 < h → 0 < galleryInitialZoom n w h m) := by
  refine ⟨fun cfg evs => ?_, galleryClampZoom_bounds, fun n w h m => min_le_right _ _,
    fun n w h m hn hw hh => ?_⟩
  · refine run_zoom_bounds cfg evs (initState cfg) ?_
    simp only [initState]
    exact defaultZoom_bounds cfg
  · have hx : 0 < (w - 2 * 80) / galleryTotalWidth m :=
      div_pos (by linarith) (galleryTotalWidth_pos m)
    have hy : 0 < (h - 2 * 80) / galleryTotalHeight n m :=
      div_pos (by linarith) (galleryTotalHeight_pos n m hn)
    exact lt_min (lt_min hx hy) one_pos

/-- Witness for C5: the drawing-component zoom is within `[0.3, 4]` after a
concrete wheel-zoom event, and a 1-submission gallery on a 1000×1000 viewport
gets a positive initial zoom. -/
theorem zoom_always_within_bounds_witness :
    (3 / 10 ≤ (run ⟨-1000, ⟨0, 0⟩, false⟩ (initState ⟨-1000, ⟨0, 0⟩, false⟩)
        [Ev.wheel 0 (-100) true ⟨0, 0⟩]).zoom) ∧
    0 < galleryInitialZoom 1 1000 1000 false :=
  ⟨(zoom_always_within_bounds.1 ⟨-1000, ⟨0, 0⟩, false⟩ [Ev.wheel 0 (-100) true ⟨0, 0⟩]).1,
   zoom_always_within_bounds.2.2.2 1 1000 1000 false (by norm_num) (by norm_num) (by norm_num)⟩

/-- Counterexample for C5: with 100 submissions on a desktop 1000×1000
viewport, the fit-to-viewport initial zoom of the gallery is `840/12760 = 21/319`,
strictly below the configured gallery bound `MIN_ZOOM = 0.1`, so the claim that
every reachable zoom (including the initial gallery fit for any number of
submissions) lies within the configured bounds is false. -/
theorem gallery_initial_zoom_below_min :
    galleryInitialZoom 100 1000 1000 false < 1 / 10 := by
  norm_num [galleryInitialZoom, galleryTotalWidth, galleryTotalHeight, galleryNumRows,
    galleryShapesPerRow]

/-! ## C7: wheel-zoom formulas

The gallery ctrl/cmd wheel zoom really is multiplicative with a `±50`-clamped
`deltaY` inside `Math.exp`; it is embedded over `ℝ` because of the
transcendental `Math.exp` (Gallery.tsx lines 289-293). -/

/-- Pre-clamp zoom of the gallery ctrl/cmd wheel handler (Gallery.tsx lines
291-292): `clampedDelta = Math.max(-50, Math.min(50, deltaY))`,
`zoomFactor = Math.exp(-clampedDelta * 0.01)`, `zoom * zoomFactor`. -/
noncomputable def galleryWheelPreR (zoom deltaY : ℝ) : ℝ :=
  zoom * Real.exp (-(max (-50) (min 50 deltaY)) * (1 / 100))

/-- Gallery ctrl/cmd wheel zoom (Gallery.tsx line 293):
`Math.max(0.1, Math.min(2, zoom * zoomFactor))`. -/
noncomputable def galleryWheelZoomR (zoom deltaY : ℝ) : ℝ :=
  max (1 / 10) (min 2 (galleryWheelPreR zoom deltaY))

/-- C7 (amended): the gallery ctrl/cmd wheel zoom is multiplicative
(pre-clamp, the ratio to the current zoom is independent of the current zoom)
and insensitive to `deltaY` beyond the `±50` clamp; the drawing-canvas
ctrl/cmd wheel zoom is instead *additive* — the pre-clamp increment
`-deltaY * 0.001` is independent of the current zoom — and applies no `±50`
clamp to `deltaY` at all. -/
theorem wheel_zoom_formulas :
    (∀ z₁ z₂ d : ℚ, drawWheelPre z₁ d - z₁ = drawWheelPre z₂ d - z₂) ∧
    (¬ ∀ z d : ℚ, drawWheelZoom z d = drawWheelZoom z (max (-50) (min 50 d))) ∧
    (∀ z₁ z₂ d : ℝ, z₂ * galleryWheelPreR z₁ d = z₁ * galleryWheelPreR z₂ d) ∧
    (∀ z d d' : ℝ, 50 ≤ d → 50 ≤ d' → galleryWheelZoomR z d = galleryWheelZoomR z d') := by
  refine ⟨fun z₁ z₂ d => by unfold drawWheelPre; ring, fun h => ?_,
    fun z₁ z₂ d => by unfold galleryWheelPreR; ring, fun z d d' hd hd' => ?_⟩
  · have h1 := h (1 / 2) (-1000)
    norm_num [drawWheelZoom, drawWheelPre, drawClampZoom] at h1
  · have hclamp : ∀ x : ℝ, 50 ≤ x → max (-50) (min 50 x) = 50 := fun x hx => by
      rw [min_eq_left hx]
      exact max_eq_right (by norm_num)
    unfold galleryWheelZoomR galleryWheelPreR
    rw [hclamp d hd, hclamp d' hd']

/-- Witness for C7: the additive-shift identity at concrete inputs, and the
gallery zoom agreeing at the two over-threshold deltas 60 and 70. -/
theorem wheel_zoom_formulas_witness :
    (drawWheelPre 1 7 - 1 = drawWheelPre 5 7 - 5) ∧
    galleryWheelZoomR 1 60 = galleryWheelZoomR 1 70 :=
  ⟨wheel_zoom_formulas.1 1 5 7,
   wheel_zoom_formulas.2.2.2 1 60 70 (by norm_num) (by norm_num)⟩

/-- Counterexample for C7: the drawing-canvas ctrl/cmd wheel zoom
(`drawWheelZoom`, src/unnamed/part_004 lines 735-741) is not of the claimed
form `clamp(zoom * exp(-clampedDeltaY * sensitivity))` for any sensitivity:
at `deltaY = -100` it maps `zoom = 1` to `1.1` and `zoom = 2` to `2.1`, which
no multiplicative factor can do. -/
theorem draw_wheel_zoom_not_multiplicative :
    ¬ ∃ s : ℝ, ∀ z d : ℚ, ((drawWheelZoom z d : ℚ) : ℝ) =
      max (3 / 10) (min 4 ((z : ℝ) * Real.exp (-(max (-50) (min 50 (d : ℝ))) * s))) := by
  rintro ⟨s, h⟩
  have h1 := h 1 (-100)
  have h2 := h 2 (-100)
  have e1 : drawWheelZoom 1 (-100) = 11 / 10 := by
    norm_num [drawWheelZoom, drawWheelPre, drawClampZoom]
  have e2 : drawWheelZoom 2 (-100) = 21 / 10 := by
    norm_num [drawWheelZoom, drawWheelPre, drawClampZoom]
  rw [e1] at h1
  rw [e2] at h2
  push_cast at h1 h2
  have key : ∀ E : ℝ, (11 / 10 : ℝ) = max (3 / 10) (min 4 (1 * E)) →
      (21 / 10 : ℝ) = max (3 / 10) (min 4 (2 * E)) → False := by
    intro E h1 h2
    have hEval : E = 11 / 10 := by
      rcases max_cases ((3 : ℝ) / 10) (min 4 (1 * E)) with ⟨heq, _⟩ | ⟨heq, _⟩ <;> rw [heq] at h1
      · norm_num at h1
      · rcases min_cases (4 : ℝ) (1 * E) with ⟨heq2, _⟩ | ⟨heq2, _⟩ <;> rw [heq2] at h1
        · norm_num at h1
        · linarith
    rw [hEval] at h2
    rcases max_cases ((3 : ℝ) / 10) (min 4 (2 * (11 / 10 : ℝ))) with ⟨heq, _⟩ | ⟨heq, _⟩ <;>
        rw [heq] at h2
    · norm_num at h2
    · rcases min_cases (4 : ℝ) (2 * (11 / 10 : ℝ)) with ⟨heq2, _⟩ | ⟨heq2, _⟩ <;>
        rw [heq2] at h2 <;> norm_num at h2
  exact key _ h1 h2

/-! ## C9: double-submission guard -/

/-- C9: a submit click never modifies the path history, move count, viewport
state or canvas; and while a submission is in flight (`isSubmitting = true`)
it is a complete no-op. -/
theorem submit_inflight_noop :
    (∀ cfg st, (step cfg st Ev.submitClick).paths = st.paths ∧
      (step cfg st Ev.submitClick).moveCount = st.moveCount ∧
      (step cfg st Ev.submitClick).zoom = st.zoom ∧
      (step cfg st Ev.submitClick).offset = st.offset ∧
      (step cfg st Ev.submitClick).stamps = st.stamps) ∧
    (∀ cfg st, st.isSubmitting = true → step cfg st Ev.submitClick = st) := by
  constructor
  · intro cfg st
    show (handleSubmit st).paths = st.paths ∧ (handleSubmit st).moveCount = st.moveCount ∧
      (handleSubmit st).zoom = st.zoom ∧ (handleSubmit st).offset = st.offset ∧
      (handleSubmit st).stamps = st.stamps
    unfold handleSubmit
    split <;> exact ⟨rfl, rfl, rfl, rfl, rfl⟩
  · intro cfg st h
    show handleSubmit st = st
    unfold handleSubmit
    rw [if_pos h]

/-- Witness for C9: submitting again from an in-flight state changes nothing. -/
theorem submit_inflight_noop_witness :
    step ⟨-1000, ⟨0, 0⟩, false⟩
      { initState ⟨-1000, ⟨0, 0⟩, false⟩ with isSubmitting := true } Ev.submitClick =
    { initState ⟨-1000, ⟨0, 0⟩, false⟩ with isSubmitting := true } :=
  submit_inflight_noop.2 _ _ rfl

/-! ## C6: two-finger gesture guards -/

/-- C6 (amended): both two-finger move handlers guard only a *missing* (null)
stored distance/center — in that case (or, on the drawing canvas, when not yet
panning) the update is skipped and only tracking is (re)initialized, leaving
zoom and offset unchanged; when the stored distance is present the ratio-zoom
division by it is performed unconditionally, with no check that it is nonzero. -/
theorem pinch_zero_distance_guard :
    (∀ cfg st t1 t2,
      st.isPanning = false ∨ st.lastTouchDistance = none ∨ st.lastTouchCenter = none →
      (step cfg st (Ev.touchMoveTwo t1 t2)).zoom = st.zoom ∧
      (step cfg st (Ev.touchMoveTwo t1 t2)).offset = st.offset) ∧
    (∀ cfg st t1 t2 d c, st.isPanning = true → st.lastTouchDistance = some d →
      st.lastTouchCenter = some c →
      (step cfg st (Ev.touchMoveTwo t1 t2)).zoom =
        drawClampZoom (st.zoom * (touchDistance t1 t2 / d))) ∧
    (∀ st t1 t2, st.lastTouchDistance = none ∨ st.lastTouchCenter = none →
      (galTouchMoveTwo st t1 t2).zoom = st.zoom ∧
      (galTouchMoveTwo st t1 t2).offset = st.offset) ∧
    (∀ st t1 t2 d c, st.lastTouchDistance = some d → st.lastTouchCenter = some c →
      (galTouchMoveTwo st t1 t2).zoom = galleryClampZoom (st.zoom * (touchDistance t1 t2 / d))) := by
  refine ⟨fun cfg st t1 t2 h => ?_, fun cfg st t1 t2 d c hp hd hc => ?_,
    fun st t1 t2 h => ?_, fun st t1 t2 d c hd hc => ?_⟩
  · show (handleTouchMoveTwo cfg st t1 t2).zoom = st.zoom ∧
      (handleTouchMoveTwo cfg st t1 t2).offset = st.offset
    cases hp : st.isPanning <;> cases hd : st.lastTouchDistance <;>
      cases hc : st.lastTouchCenter <;> simp_all [handleTouchMoveTwo]
  · show (handleTouchMoveTwo cfg st t1 t2).zoom = drawClampZoom (st.zoom * (touchDistance t1 t2 / d))
    simp [handleTouchMoveTwo, hp, hd, hc]
  · cases hd : st.lastTouchDistance <;> cases hc : st.lastTouchCenter <;>
      simp_all [galTouchMoveTwo]
  · simp [galTouchMoveTwo, hd, hc]

/-- Witness for C6: from the initial state (not panning, no stored distance) a
two-finger move only initializes tracking and leaves the zoom unchanged. -/
theorem pinch_zero_distance_guard_witness :
    (step ⟨-1000, ⟨0, 0⟩, false⟩ (initState ⟨-1000, ⟨0, 0⟩, false⟩)
      (Ev.touchMoveTwo ⟨0, 0⟩ ⟨3, 4⟩)).zoom = (initState ⟨-1000, ⟨0, 0⟩, false⟩).zoom :=
  (pinch_zero_distance_guard.1 ⟨-1000, ⟨0, 0⟩, false⟩ (initState ⟨-1000, ⟨0, 0⟩, false⟩)
    ⟨0, 0⟩ ⟨3, 4⟩ (Or.inl rfl)).1

/-! ## C8: two-finger preemption -/

theorem appendToLast_length (l : List DrawPath) (pos : Point) (w : ℚ) :
    (appendToLast l pos w).length = l.length := by
  induction l with
  | nil => rfl
  | cons p ps ih =>
    cases ps with
    | nil => rfl
    | cons q qs => simpa [appendToLast] using ih

theorem extendStroke_isPanning (st : DrawState) (pos : Point) (now rand : ℚ) :
    (extendStroke st pos now rand).isPanning = st.isPanning := by
  unfold extendStroke
  split <;> rfl

theorem extendStroke_isDrawing (st : DrawState) (pos : Point) (now rand : ℚ) :
    (extendStroke st pos now rand).isDrawing = st.isDrawing := by
  unfold extendStroke
  split <;> rfl

theorem extendStroke_moveCount (st : DrawState) (pos : Point) (now rand : ℚ) :
    (extendStroke st pos now rand).moveCount = st.moveCount := by
  unfold extendStroke
  split <;> rfl

theorem extendStroke_paths_length (st : DrawState) (pos : Point) (now rand : ℚ) :
    (extendStroke st pos now rand).paths.length = st.paths.length := by
  unfold extendStroke
  split
  · rfl
  · simp [appendToLast_length]

theorem commitPending_isPanning (st : DrawState) (b : Bool) :
    (commitPending st b).isPanning = st.isPanning := by
  unfold commitPending
  split <;> rfl

theorem handleTouchStartOne_paths (st : DrawState) (p : Point) (now : ℚ) :
    (handleTouchStartOne st p now).paths = st.paths := by
  unfold handleTouchStartOne
  split
  · rfl
  · split <;> rfl

/-- A touch event never makes the component draw and pan/zoom at the same
time. -/
theorem touch_step_not_draw_and_pan (cfg : Cfg) (st : DrawState) (ev : Ev)
    (hev : ev.isTouch = true) (h : st.isDrawing = false ∨ st.isPanning = false) :
    (step cfg st ev).isDrawing = false ∨ (step cfg st ev).isPanning = false := by
  cases ev with
  | touchStartOne client now =>
    show (handleTouchStartOne st client now).isDrawing = false ∨
      (handleTouchStartOne st client now).isPanning = false
    unfold handleTouchStartOne
    split
    · exact h
    · split
      · exact h
      · exact h
  | touchStartTwo t1 t2 => exact Or.inl rfl
  | touchMoveOne client now rand =>
    show (handleTouchMoveOne st client now rand).isDrawing = false ∨
      (handleTouchMoveOne st client now rand).isPanning = false
    unfold handleTouchMoveOne
    split
    · exact h
    · rename_i hp
      have hp' : st.isPanning = false := by
        cases hpv : st.isPanning
        · rfl
        · exact absurd hpv hp
      dsimp only
      split
      · exact Or.inr ((commitPending_isPanning st true).trans hp')
      · exact Or.inr (((extendStroke_isPanning _ _ _ _).trans
          (commitPending_isPanning st true)).trans hp')
  | touchMoveTwo t1 t2 =>
    show (handleTouchMoveTwo cfg st t1 t2).isDrawing = false ∨ _
    unfold handleTouchMoveTwo
    split <;> exact Or.inl rfl
  | touchEnd => exact Or.inl rfl
  | mouseDown client now => simp [Ev.isTouch] at hev
  | mouseMove client now rand => simp [Ev.isTouch] at hev
  | mouseUp => simp [Ev.isTouch] at hev
  | mouseLeave => simp [Ev.isTouch] at hev
  | wheel dx dy ctrl client => simp [Ev.isTouch] at hev
  | gestureStart scale => simp [Ev.isTouch] at hev
  | gestureChange scale client => simp [Ev.isTouch] at hev
  | gestureEnd => simp [Ev.isTouch] at hev
  | resetClick => simp [Ev.isTouch] at hev
  | submitClick => simp [Ev.isTouch] at hev

theorem run_touch_not_draw_and_pan (cfg : Cfg) (evs : List Ev) (st : DrawState)
    (hevs : ∀ e ∈ evs, e.isTouch = true)
    (h : st.isDrawing = false ∨ st.isPanning = false) :
    (run cfg st evs).isDrawing = false ∨ (run cfg st evs).isPanning = false := by
  induction evs generalizing st with
  | nil => exact h
  | cons ev evs ih =>
    exact ih (step cfg st ev) (fun e he => hevs e (List.mem_cons_of_mem ev he))
      (touch_step_not_draw_and_pan cfg st ev (hevs ev (List.mem_cons_self ev evs)) h)

/-- C8: a single-finger touch start followed by a second finger before any move
event leaves the path history exactly as before the touch (zero points recorded
for that stroke), cancels the pending and any active stroke, and transitions
into pinch/pan mode; and over every touch-event sequence the component is never
simultaneously drawing and panning/zooming. -/
theorem two_finger_preemption :
    (∀ cfg st p now t1 t2,
      (step cfg (step cfg st (Ev.touchStartOne p now)) (Ev.touchStartTwo t1 t2)).paths =
        st.paths ∧
      (step cfg (step cfg st (Ev.touchStartOne p now)) (Ev.touchStartTwo t1 t2)).pending =
        none ∧
      (step cfg (step cfg st (Ev.touchStartOne p now)) (Ev.touchStartTwo t1 t2)).isDrawing =
        false ∧
      (step cfg (step cfg st (Ev.touchStartOne p now)) (Ev.touchStartTwo t1 t2)).isPanning =
        true) ∧
    (∀ cfg evs, (∀ e ∈ evs, e.isTouch = true) →
      (run cfg (initState cfg) evs).isDrawing = false ∨
      (run cfg (initState cfg) evs).isPanning = false) := by
  constructor
  · intro cfg st p now t1 t2
    exact ⟨handleTouchStartOne_paths st p now, rfl, rfl, rfl⟩
  · intro cfg evs hevs
    exact run_touch_not_draw_and_pan cfg evs (initState cfg) hevs (Or.inl rfl)

/-- Witness for C8: the concrete preemption scenario — a touch at `(5, 5)`
joined by a second finger before any move leaves no recorded path and the
component in panning, not drawing, mode. -/
theorem two_finger_preemption_witness :
    ((step ⟨-1000, ⟨0, 0⟩, false⟩
        (step ⟨-1000, ⟨0, 0⟩, false⟩ (initState ⟨-1000, ⟨0, 0⟩, false⟩)
          (Ev.touchStartOne ⟨5, 5⟩ 0))
        (Ev.touchStartTwo ⟨0, 0⟩ ⟨10, 10⟩)).paths = [] ∧
      (step ⟨-1000, ⟨0, 0⟩, false⟩
        (step ⟨-1000, ⟨0, 0⟩, false⟩ (initState ⟨-1000, ⟨0, 0⟩, false⟩)
          (Ev.touchStartOne ⟨5, 5⟩ 0))
        (Ev.touchStartTwo ⟨0, 0⟩ ⟨10, 10⟩)).isDrawing = false) ∧
    ((run ⟨-1000, ⟨0, 0⟩, false⟩ (initState ⟨-1000, ⟨0, 0⟩, false⟩)
        [Ev.touchStartOne ⟨5, 5⟩ 0, Ev.touchStartTwo ⟨0, 0⟩ ⟨10, 10⟩]).isDrawing = false ∨
      (run ⟨-1000, ⟨0, 0⟩, false⟩ (initState ⟨-1000, ⟨0, 0⟩, false⟩)
        [Ev.touchStartOne ⟨5, 5⟩ 0, Ev.touchStartTwo ⟨0, 0⟩ ⟨10, 10⟩]).isPanning = false) :=
  ⟨⟨(two_finger_preemption.1 ⟨-1000, ⟨0, 0⟩, false⟩ (initState ⟨-1000, ⟨0, 0⟩, false⟩)
      ⟨5, 5⟩ 0 ⟨0, 0⟩ ⟨10, 10⟩).1,
    (two_finger_preemption.1 ⟨-1000, ⟨0, 0⟩, false⟩ (initState ⟨-1000, ⟨0, 0⟩, false⟩)
      ⟨5, 5⟩ 0 ⟨0, 0⟩ ⟨10, 10⟩).2.2.1⟩,
   two_finger_preemption.2 ⟨-1000, ⟨0, 0⟩, false⟩
     [Ev.touchStartOne ⟨5, 5⟩ 0, Ev.touchStartTwo ⟨0, 0⟩ ⟨10, 10⟩]
     (by intro e he; simp only [List.mem_cons, List.not_mem_nil, or_false] at he
         rcases he with rfl | rfl <;> rfl)⟩

/-! ## C10: move count vs. path-history length -/

theorem finishStroke_paths (st : DrawState) : (finishStroke st).paths = st.paths := by
  unfold finishStroke
  split <;> rfl

theorem finishStroke_moveCount (st : DrawState) : (finishStroke st).moveCount = st.moveCount := by
  unfold finishStroke
  split <;> rfl

theorem finishStroke_pending (st : DrawState) : (finishStroke st).pending = st.pending := by
  unfold finishStroke
  split <;> rfl

theorem commitPending_count_eq (st : DrawState) (b : Bool)
    (h : st.moveCount = st.paths.length) :
    (commitPending st b).moveCount = (commitPending st b).paths.length := by
  unfold commitPending
  split
  · simp [h]
  · exact h

theorem extendStroke_count_eq (st : DrawState) (pos : Point) (now rand : ℚ)
    (h : st.moveCount = st.paths.length) :
    (extendStroke st pos now rand).moveCount = (extendStroke st pos now rand).paths.length := by
  rw [extendStroke_moveCount, extendStroke_paths_length]
  exact h

/-- Every single event preserves `moveCount = paths.length`: each operation
that appends a path increments the count in the same step, and reset zeroes
both. -/
theorem step_count_eq_length (cfg : Cfg) (st : DrawState) (ev : Ev)
    (h : st.moveCount = st.paths.length) :
    (step cfg st ev).moveCount = (step cfg st ev).paths.length := by
  cases ev with
  | mouseDown client now =>
    show (handleMouseDown st client now).moveCount = (handleMouseDown st client now).paths.length
    unfold handleMouseDown
    split
    · exact h
    · simp [h]
  | mouseMove client now rand =>
    show (handleMouseMove st client now rand).moveCount =
      (handleMouseMove st client now rand).paths.length
    unfold handleMouseMove
    split
    · exact h
    · exact extendStroke_count_eq st _ now rand h
  | mouseUp =>
    show (finishStroke st).moveCount = (finishStroke st).paths.length
    rw [finishStroke_moveCount, finishStroke_paths]
    exact h
  | mouseLeave =>
    show (finishStroke st).moveCount = (finishStroke st).paths.length
    rw [finishStroke_moveCount, finishStroke_paths]
    exact h
  | touchStartOne client now =>
    show (handleTouchStartOne st client now).moveCount =
      (handleTouchStartOne st client now).paths.length
    unfold handleTouchStartOne
    split
    · exact h
    · split <;> exact h
  | touchStartTwo t1 t2 => exact h
  | touchMoveOne client now rand =>
    show (handleTouchMoveOne st client now rand).moveCount =
      (handleTouchMoveOne st client now rand).paths.length
    unfold handleTouchMoveOne
    split
    · exact h
    · dsimp only
      split
      · exact commitPending_count_eq st true h
      · exact extendStroke_count_eq _ _ now rand (commitPending_count_eq st true h)
  | touchMoveTwo t1 t2 =>
    show (handleTouchMoveTwo cfg st t1 t2).moveCount = (handleTouchMoveTwo cfg st t1 t2).paths.length
    unfold handleTouchMoveTwo
    split <;> exact h
  | touchEnd =>
    show (commitPending st false).moveCount = (commitPending st false).paths.length
    exact commitPending_count_eq st false h
  | wheel dx dy ctrl client =>
    show (handleWheel cfg st dx dy ctrl client).moveCount =
      (handleWheel cfg st dx dy ctrl client).paths.length
    unfold handleWheel
    split <;> exact h
  | gestureStart scale => exact h
  | gestureChange scale client => exact h
  | gestureEnd => exact h
  | resetClick => rfl
  | submitClick =>
    show (handleSubmit st).moveCount = (handleSubmit st).paths.length
    unfold handleSubmit
    split <;> exact h

theorem run_count_eq_length (cfg : Cfg) (evs : List Ev) (st : DrawState)
    (h : st.moveCount = st.paths.length) :
    (run cfg st evs).moveCount = (run cfg st evs).paths.length := by
  induction evs generalizing st with
  | nil => exact h
  | cons ev evs ih => exact ih (step cfg st ev) (step_count_eq_length cfg st ev h)

/-! ## Discrete-gesture lemmas (C1, C10)

A state is *quiescent* between discrete gestures: no pending touch, not
drawing, not panning, no last point, zeroed last time — exactly the state the
component is in after a completed pointer-up/touch-end. -/

def Quiescent (st : DrawState) : Prop :=
  st.pending = none ∧ st.isDrawing = false ∧ st.isPanning = false ∧
  st.lastPoint = none ∧ st.lastTime = 0

/-- Mid-stroke state: drawing, no pending touch, not panning, a recorded last
point. -/
def Stroking (st : DrawState) : Prop :=
  st.isDrawing = true ∧ st.pending = none ∧ st.isPanning = false ∧
  ∃ lp, st.lastPoint = some lp

/-- Deferred-touch state: a pending touch stored, not drawing, not panning, the
pending position recorded as last point. -/
def PendingTouch (st : DrawState) : Prop :=
  (∃ p, st.pending = some p) ∧ st.isDrawing = false ∧ st.isPanning = false ∧
  ∃ q, st.lastPoint = some q

theorem run_cons (cfg : Cfg) (st : DrawState) (ev : Ev) (evs : List Ev) :
    run cfg st (ev :: evs) = run cfg (step cfg st ev) evs := rfl

theorem run_append (cfg : Cfg) (st : DrawState) (l₁ l₂ : List Ev) :
    run cfg st (l₁ ++ l₂) = run cfg (run cfg st l₁) l₂ := by
  unfold run
  exact List.foldl_append _ _ _ _

theorem commitPending_of_none (st : DrawState) (b : Bool) (h : st.pending = none) :
    commitPending st b = st := by
  unfold commitPending
  split
  · simp_all
  · rfl

theorem extendStroke_of_none (st : DrawState) (pos : Point) (now rand : ℚ)
    (h : st.lastPoint = none) : extendStroke st pos now rand = st := by
  unfold extendStroke
  split
  · rfl
  · simp_all

theorem finishStroke_of_not_drawing (st : DrawState) (h : st.isDrawing = false) :
    finishStroke st = st := by
  unfold finishStroke
  split
  · simp_all
  · rfl

theorem mouseMove_of_not_drawing (st : DrawState) (c : Point) (n r : ℚ)
    (h : st.isDrawing = false) : handleMouseMove st c n r = st := by
  unfold handleMouseMove
  rw [if_pos h]

theorem touchMoveOne_inert (st : DrawState) (c : Point) (n r : ℚ)
    (hpan : st.isPanning = false) (hpend : st.pending = none)
    (hlp : st.lastPoint = none) : handleTouchMoveOne st c n r = st := by
  unfold handleTouchMoveOne
  rw [if_neg (by simp [hpan])]
  dsimp only
  rw [commitPending_of_none st true hpend, extendStroke_of_none st _ n r hlp, ite_self]

/-- Extending during a stroke keeps the stroking state and the move count and
path count. -/
theorem stroking_extendStroke (st : DrawState) (pos : Point) (now rand : ℚ)
    (h : Stroking st) :
    Stroking (extendStroke st pos now rand) ∧
    (extendStroke st pos now rand).moveCount = st.moveCount ∧
    (extendStroke st pos now rand).paths.length = st.paths.length := by
  obtain ⟨hd, hpend, hpan, lp, hlp⟩ := h
  unfold extendStroke
  rw [hlp]
  refine ⟨⟨hd, hpend, hpan, pos, rfl⟩, rfl, ?_⟩
  simp [appendToLast_length]

theorem stroking_mouseMove (st : DrawState) (c : Point) (n r : ℚ) (h : Stroking st) :
    Stroking (handleMouseMove st c n r) ∧
    (handleMouseMove st c n r).moveCount = st.moveCount ∧
    (handleMouseMove st c n r).paths.length = st.paths.length := by
  unfold handleMouseMove
  rw [if_neg (by simp [h.1])]
  exact stroking_extendStroke st _ n r h

theorem commitPending_of_some (st : DrawState) (b : Bool) (p : Point)
    (h : st.pending = some p) :
    commitPending st b =
      { st with isDrawing := b || st.isDrawing
                moveCount := st.moveCount + 1
                paths := st.paths ++ [⟨[p], 10⟩]
                stamps := st.stamps ++ [⟨p, 10⟩]
                pending := none } := by
  unfold commitPending
  split
  · simp_all
  · simp_all

theorem commitPending_some_moveCount (st : DrawState) (b : Bool) (p : Point)
    (h : st.pending = some p) : (commitPending st b).moveCount = st.moveCount + 1 := by
  rw [commitPending_of_some st b p h]

theorem commitPending_some_paths_length (st : DrawState) (b : Bool) (p : Point)
    (h : st.pending = some p) :
    (commitPending st b).paths.length = st.paths.length + 1 := by
  rw [commitPending_of_some st b p h]
  simp

theorem commitPending_lastPoint (st : DrawState) (b : Bool) :
    (commitPending st b).lastPoint = st.lastPoint := by
  unfold commitPending
  split <;> rfl

theorem commitPending_some_stroking (st : DrawState) (p : Point)
    (hpend : st.pending = some p) (hpan : st.isPanning = false) (q : Point)
    (hlp : st.lastPoint = some q) : Stroking (commitPending st true) := by
  rw [commitPending_of_some st true p hpend]
  exact ⟨by simp, rfl, hpan, q, hlp⟩

theorem stroking_touchMoveOne (st : DrawState) (c : Point) (n r : ℚ) (h : Stroking st) :
    Stroking (handleTouchMoveOne st c n r) ∧
    (handleTouchMoveOne st c n r).moveCount = st.moveCount ∧
    (handleTouchMoveOne st c n r).paths.length = st.paths.length := by
  obtain ⟨hd, hpend, hpan, lp, hlp⟩ := h
  unfold handleTouchMoveOne
  rw [if_neg (by simp [hpan])]
  dsimp only
  rw [commitPending_of_none st true hpend, if_neg (by simp [hd])]
  exact stroking_extendStroke st _ n r ⟨hd, hpend, hpan, lp, hlp⟩

/-- The first single-finger move after a deferred touch start commits the
pending touch: one new path, one new move, and the component is stroking. -/
theorem pendingTouch_touchMoveOne (st : DrawState) (c : Point) (n r : ℚ)
    (h : PendingTouch st) :
    Stroking (handleTouchMoveOne st c n r) ∧
    (handleTouchMoveOne st c n r).moveCount = st.moveCount + 1 ∧
    (handleTouchMoveOne st c n r).paths.length = st.paths.length + 1 := by
  obtain ⟨⟨p, hpend⟩, hd, hpan, q, hlp⟩ := h
  unfold handleTouchMoveOne
  rw [if_neg (by simp [hpan])]
  dsimp only
  have hne : ¬(st.isDrawing = false ∧ (commitPending st true).paths = []) := by
    rintro ⟨-, h2⟩
    rw [commitPending_of_some st true p hpend] at h2
    simp at h2
  rw [if_neg hne]
  have hstroke := commitPending_some_stroking st p hpend hpan q hlp
  have hext := stroking_extendStroke _ (eventPos st c) n r hstroke
  refine ⟨hext.1, ?_, ?_⟩
  · rw [hext.2.1, commitPending_some_moveCount st true p hpend]
  · rw [hext.2.2, commitPending_some_paths_length st true p hpend]

/-- A quiescent state below the cap enters a deferred touch on single-finger
touch start. -/
theorem quiescent_touchStartOne (st : DrawState) (c : Point) (n : ℚ)
    (hq : Quiescent st) (h5 : st.moveCount < 5) :
    PendingTouch (handleTouchStartOne st c n) ∧
    (handleTouchStartOne st c n).moveCount = st.moveCount ∧
    (handleTouchStartOne st c n).paths = st.paths := by
  obtain ⟨hpend, hd, hpan, hlp, hlt⟩ := hq
  unfold handleTouchStartOne
  rw [if_neg (by simp [hpan]), if_neg (by omega)]
  exact ⟨⟨⟨_, rfl⟩, hd, hpan, _, rfl⟩, rfl, rfl⟩

/-- A quiescent state below the cap starts a stroke on mouse down: one new
path, one new move. -/
theorem quiescent_mouseDown (st : DrawState) (c : Point) (n : ℚ)
    (hq : Quiescent st) (h5 : st.moveCount < 5) :
    Stroking (handleMouseDown st c n) ∧
    (handleMouseDown st c n).moveCount = st.moveCount + 1 ∧
    (handleMouseDown st c n).paths.length = st.paths.length + 1 := by
  obtain ⟨hpend, hd, hpan, hlp, hlt⟩ := hq
  unfold handleMouseDown
  rw [if_neg (by omega)]
  exact ⟨⟨rfl, hpend, hpan, _, rfl⟩, rfl, by simp⟩

/-- Mouse up from any state with no pending touch returns to quiescence
without touching move count or paths. -/
theorem mouseUp_finish (st : DrawState) (hpend : st.pending = none) :
    Quiescent (handleMouseUp st) ∧
    (handleMouseUp st).moveCount = st.moveCount ∧
    (handleMouseUp st).paths = st.paths := by
  refine ⟨⟨(finishStroke_pending st).trans hpend, rfl, rfl, rfl, rfl⟩, ?_, ?_⟩
  · exact finishStroke_moveCount st
  · exact finishStroke_paths st

/-- Touch end with no pending touch returns to quiescence without touching
move count or paths. -/
theorem touchEnd_finish_none (st : DrawState) (hpend : st.pending = none) :
    Quiescent (handleTouchEnd st) ∧
    (handleTouchEnd st).moveCount = st.moveCount ∧
    (handleTouchEnd st).paths = st.paths := by
  unfold handleTouchEnd
  rw [commitPending_of_none st false hpend]
  exact ⟨⟨hpend, rfl, rfl, rfl, rfl⟩, rfl, rfl⟩

/-- Touch end with a pending touch (a tap without movement) commits it as a
single dot: one new path, one new move, back to quiescence. -/
theorem touchEnd_finish_pending (st : DrawState) (p : Point) (hpend : st.pending = some p) :
    Quiescent (handleTouchEnd st) ∧
    (handleTouchEnd st).moveCount = st.moveCount + 1 ∧
    (handleTouchEnd st).paths.length = st.paths.length + 1 := by
  unfold handleTouchEnd
  rw [commitPending_of_some st false p hpend]
  exact ⟨⟨rfl, rfl, rfl, rfl, rfl⟩, rfl, by simp⟩

theorem stroking_mouse_moves (cfg : Cfg) (ms : List (Point × ℚ × ℚ)) (st : DrawState)
    (h : Stroking st) :
    Stroking (run cfg st (ms.map fun m => Ev.mouseMove m.1 m.2.1 m.2.2)) ∧
    (run cfg st (ms.map fun m => Ev.mouseMove m.1 m.2.1 m.2.2)).moveCount = st.moveCount ∧
    (run cfg st (ms.map fun m => Ev.mouseMove m.1 m.2.1 m.2.2)).paths.length =
      st.paths.length := by
  induction ms generalizing st with
  | nil => exact ⟨h, rfl, rfl⟩
  | cons m ms ih =>
    have hs := stroking_mouseMove st m.1 m.2.1 m.2.2 h
    have := ih (handleMouseMove st m.1 m.2.1 m.2.2) hs.1
    exact ⟨this.1, this.2.1.trans hs.2.1, this.2.2.trans hs.2.2⟩

theorem stroking_touch_moves (cfg : Cfg) (ms : List (Point × ℚ × ℚ)) (st : DrawState)
    (h : Stroking st) :
    Stroking (run cfg st (ms.map fun m => Ev.touchMoveOne m.1 m.2.1 m.2.2)) ∧
    (run cfg st (ms.map fun m => Ev.touchMoveOne m.1 m.2.1 m.2.2)).moveCount = st.moveCount ∧
    (run cfg st (ms.map fun m => Ev.touchMoveOne m.1 m.2.1 m.2.2)).paths.length =
      st.paths.length := by
  induction ms generalizing st with
  | nil => exact ⟨h, rfl, rfl⟩
  | cons m ms ih =>
    have hs := stroking_touchMoveOne st m.1 m.2.1 m.2.2 h
    have := ih (handleTouchMoveOne st m.1 m.2.1 m.2.2) hs.1
    exact ⟨this.1, this.2.1.trans hs.2.1, this.2.2.trans hs.2.2⟩

/-- One discrete gesture from a quiescent state below the move cap: exactly one
new move and one new path, ending quiescent again. -/
theorem runGestures_cons (cfg : Cfg) (st : DrawState) (g : Gesture) (gs : List Gesture) :
    runGestures cfg st (g :: gs) = runGestures cfg (run cfg st (gestureEvents g)) gs := rfl

theorem gesture_below_cap (cfg : Cfg) (g : Gesture) (st : DrawState)
    (hq : Quiescent st) (h5 : st.moveCount < 5) :
    Quiescent (run cfg st (gestureEvents g)) ∧
    (run cfg st (gestureEvents g)).moveCount = st.moveCount + 1 ∧
    (run cfg st (gestureEvents g)).paths.length = st.paths.length + 1 := by
  cases g with
  | mouse p t ms =>
    simp only [gestureEvents]
    rw [run_append, run_cons]
    have h1 := quiescent_mouseDown st p t hq h5
    have h2 := stroking_mouse_moves cfg ms (handleMouseDown st p t) h1.1
    have h3 := mouseUp_finish _ h2.1.2.1
    refine ⟨h3.1, ?_, ?_⟩
    · show (handleMouseUp (run cfg (handleMouseDown st p t)
          (List.map (fun m => Ev.mouseMove m.1 m.2.1 m.2.2) ms))).moveCount = st.moveCount + 1
      rw [h3.2.1, h2.2.1, h1.2.1]
    · show (handleMouseUp (run cfg (handleMouseDown st p t)
          (List.map (fun m => Ev.mouseMove m.1 m.2.1 m.2.2) ms))).paths.length =
        st.paths.length + 1
      rw [h3.2.2, h2.2.2, h1.2.2]
  | touch p t ms =>
    simp only [gestureEvents]
    rw [run_append, run_cons]
    have h1 := quiescent_touchStartOne st p t hq h5
    cases ms with
    | nil =>
      obtain ⟨⟨pp, hpp⟩, -, -, -⟩ := h1.1
      have h3 := touchEnd_finish_pending _ pp hpp
      refine ⟨h3.1, ?_, ?_⟩
      · show (handleTouchEnd (handleTouchStartOne st p t)).moveCount = st.moveCount + 1
        rw [h3.2.1, h1.2.1]
      · show (handleTouchEnd (handleTouchStartOne st p t)).paths.length = st.paths.length + 1
        rw [h3.2.2, h1.2.2]
    | cons m ms =>
      simp only [List.map_cons]
      rw [run_cons]
      have h2 := pendingTouch_touchMoveOne (handleTouchStartOne st p t) m.1 m.2.1 m.2.2 h1.1
      have h3 := stroking_touch_moves cfg ms _ h2.1
      have h4 := touchEnd_finish_none _ h3.1.2.1
      refine ⟨h4.1, ?_, ?_⟩
      · show (handleTouchEnd (run cfg
            (handleTouchMoveOne (handleTouchStartOne st p t) m.1 m.2.1 m.2.2)
            (List.map (fun m => Ev.touchMoveOne m.1 m.2.1 m.2.2) ms))).moveCount =
          st.moveCount + 1
        rw [h4.2.1, h3.2.1, h2.2.1, h1.2.1]
      · show (handleTouchEnd (run cfg
            (handleTouchMoveOne (handleTouchStartOne st p t) m.1 m.2.1 m.2.2)
            (List.map (fun m => Ev.touchMoveOne m.1 m.2.1 m.2.2) ms))).paths.length =
          st.paths.length + 1
        rw [h4.2.2, h3.2.2, h2.2.2, h1.2.2]

theorem handleMouseDown_at_cap (st : DrawState) (c : Point) (n : ℚ)
    (h5 : 5 ≤ st.moveCount) : handleMouseDown st c n = st := by
  unfold handleMouseDown
  rw [if_pos h5]

theorem touchStartOne_at_cap (st : DrawState) (c : Point) (n : ℚ)
    (hpan : st.isPanning = false) (h5 : 5 ≤ st.moveCount) :
    handleTouchStartOne st c n = st := by
  unfold handleTouchStartOne
  rw [if_neg (by simp [hpan]), if_pos h5]

theorem run_fixed (cfg : Cfg) (l : List Ev) (st : DrawState)
    (h : ∀ e ∈ l, step cfg st e = st) : run cfg st l = st := by
  induction l with
  | nil => rfl
  | cons e es ih =>
    rw [run_cons, h e (List.mem_cons_self e es)]
    exact ih (fun e' he' => h e' (List.mem_cons_of_mem e he'))

/-- One discrete gesture from a quiescent state at the move cap is a complete
no-op on the path history, the move count and the canvas, and stays quiescent. -/
theorem gesture_at_cap (cfg : Cfg) (g : Gesture) (st : DrawState)
    (hq : Quiescent st) (h5 : 5 ≤ st.moveCount) :
    Quiescent (run cfg st (gestureEvents g)) ∧
    (run cfg st (gestureEvents g)).moveCount = st.moveCount ∧
    (run cfg st (gestureEvents g)).paths = st.paths ∧
    (run cfg st (gestureEvents g)).stamps = st.stamps := by
  obtain ⟨hpend, hd, hpan, hlp, hlt⟩ := hq
  cases g with
  | mouse p t ms =>
    simp only [gestureEvents]
    rw [run_append, run_cons cfg st (Ev.mouseDown p t)]
    have hdown : step cfg st (Ev.mouseDown p t) = st := handleMouseDown_at_cap st _ t h5
    rw [hdown]
    have hmoves : run cfg st (ms.map fun m => Ev.mouseMove m.1 m.2.1 m.2.2) = st := by
      refine run_fixed cfg _ st (fun e he => ?_)
      simp only [List.mem_map] at he
      obtain ⟨m, -, rfl⟩ := he
      exact mouseMove_of_not_drawing st m.1 m.2.1 m.2.2 hd
    rw [hmoves]
    have h3 := mouseUp_finish st hpend
    refine ⟨h3.1, h3.2.1, h3.2.2, ?_⟩
    show (finishStroke st).stamps = st.stamps
    rw [finishStroke_of_not_drawing st hd]
  | touch p t ms =>
    simp only [gestureEvents]
    rw [run_append, run_cons cfg st (Ev.touchStartOne p t)]
    have hstart : step cfg st (Ev.touchStartOne p t) = st :=
      touchStartOne_at_cap st _ t hpan h5
    rw [hstart]
    have hmoves : run cfg st (ms.map fun m => Ev.touchMoveOne m.1 m.2.1 m.2.2) = st := by
      refine run_fixed cfg _ st (fun e he => ?_)
      simp only [List.mem_map] at he
      obtain ⟨m, -, rfl⟩ := he
      exact touchMoveOne_inert st m.1 m.2.1 m.2.2 hpan hpend hlp
    rw [hmoves]
    have h3 := touchEnd_finish_none st hpend
    refine ⟨h3.1, h3.2.1, h3.2.2, ?_⟩
    show (commitPending st false).stamps = st.stamps
    rw [commitPending_of_none st false hpend]

/-- Running discrete gestures from a quiescent state: the move count saturates
at the cap of 5 and always equals the path-history length. -/
theorem runGestures_saturates (cfg : Cfg) (gs : List Gesture) (st : DrawState)
    (hq : Quiescent st) (hc : st.moveCount ≤ 5)
    (he : st.moveCount = st.paths.length) :
    Quiescent (runGestures cfg st gs) ∧
    (runGestures cfg st gs).moveCount = min 5 (st.moveCount + gs.length) ∧
    (runGestures cfg st gs).moveCount = (runGestures cfg st gs).paths.length := by
  induction gs generalizing st with
  | nil =>
    refine ⟨hq, ?_, he⟩
    show st.moveCount = min 5 (st.moveCount + ([] : List Gesture).length)
    simp only [List.length_nil, Nat.add_zero]
    omega
  | cons g gs ih =>
    rw [runGestures_cons]
    rcases lt_or_ge st.moveCount 5 with hlt | hge
    · have h1 := gesture_below_cap cfg g st hq hlt
      have := ih (run cfg st (gestureEvents g)) h1.1 (by omega)
        (by rw [h1.2.1, he]; exact h1.2.2.symm ▸ rfl)
      refine ⟨this.1, ?_, this.2.2⟩
      rw [this.2.1, h1.2.1]
      simp only [List.length_cons]
      omega
    · have hc5 : st.moveCount = 5 := le_antisymm hc hge
      have h1 := gesture_at_cap cfg g st hq hge
      have he' : (run cfg st (gestureEvents g)).moveCount =
          (run cfg st (gestureEvents g)).paths.length := by
        rw [h1.2.1, h1.2.2.1, he]
      have := ih (run cfg st (gestureEvents g)) h1.1 (by omega) he'
      refine ⟨this.1, ?_, this.2.2⟩
      rw [this.2.1, h1.2.1, hc5]
      simp only [List.length_cons]
      omega

theorem initState_quiescent (cfg : Cfg) : Quiescent (initState cfg) :=
  ⟨rfl, rfl, rfl, rfl, rfl⟩

/-- The pointer-down event of a gesture. -/
def gestureDown : Gesture → Ev
  | .mouse p t _ => Ev.mouseDown p t
  | .touch p t _ => Ev.touchStartOne p t

/-- C1: move-budget enforcement — for every six discrete stroke gestures
(mouse or touch, any mixture, any move lists), the first five leave exactly 5
paths in the history, the sixth leaves it at 5, the sixth gesture's
pointer-down (occurring at move count 5) is a complete no-op on the state, and
the sixth gesture stamps nothing. -/
theorem move_budget_enforcement (cfg : Cfg) (g₁ g₂ g₃ g₄ g₅ g₆ : Gesture) :
    (runGestures cfg (initState cfg) [g₁, g₂, g₃, g₄, g₅]).paths.length = 5 ∧
    (runGestures cfg (initState cfg) [g₁, g₂, g₃, g₄, g₅, g₆]).paths.length = 5 ∧
    step cfg (runGestures cfg (initState cfg) [g₁, g₂, g₃, g₄, g₅]) (gestureDown g₆) =
      runGestures cfg (initState cfg) [g₁, g₂, g₃, g₄, g₅] ∧
    (runGestures cfg (initState cfg) [g₁, g₂, g₃, g₄, g₅, g₆]).stamps =
      (runGestures cfg (initState cfg) [g₁, g₂, g₃, g₄, g₅]).stamps := by
  have h5 := runGestures_saturates cfg [g₁, g₂, g₃, g₄, g₅] (initState cfg)
    (initState_quiescent cfg) (Nat.zero_le 5) rfl
  have hcount : (runGestures cfg (initState cfg) [g₁, g₂, g₃, g₄, g₅]).moveCount = 5 := by
    rw [h5.2.1]
    rfl
  have hlen : (runGestures cfg (initState cfg) [g₁, g₂, g₃, g₄, g₅]).paths.length = 5 := by
    rw [← h5.2.2, hcount]
  have hge : 5 ≤ (runGestures cfg (initState cfg) [g₁, g₂, g₃, g₄, g₅]).moveCount :=
    hcount.ge
  have hsplit : runGestures cfg (initState cfg) [g₁, g₂, g₃, g₄, g₅, g₆] =
      run cfg (runGestures cfg (initState cfg) [g₁, g₂, g₃, g₄, g₅]) (gestureEvents g₆) := rfl
  have h6 := gesture_at_cap cfg g₆ _ h5.1 hge
  refine ⟨hlen, ?_, ?_, ?_⟩
  · rw [hsplit, h6.2.2.1, hlen]
  · cases g₆ with
    | mouse p t ms => exact handleMouseDown_at_cap _ p t hge
    | touch p t ms => exact touchStartOne_at_cap _ p t h5.1.2.2.1 hge
  · rw [hsplit, h6.2.2.2]

/-- C10 (amended): the move count equals the number of paths in Path History
after every event sequence, and over sequences of *discrete* (non-overlapping)
gestures the budget check bounds the path history length by 5. -/
theorem move_count_equals_path_count :
    (∀ cfg evs, (run cfg (initState cfg) evs).moveCount =
      (run cfg (initState cfg) evs).paths.length) ∧
    (∀ cfg gs, (runGestures cfg (initState cfg) gs).paths.length ≤ 5) := by
  constructor
  · intro cfg evs
    exact run_count_eq_length cfg evs (initState cfg) rfl
  · intro cfg gs
    have h := runGestures_saturates cfg gs (initState cfg) (initState_quiescent cfg)
      (Nat.zero_le 5) rfl
    rw [← h.2.2, h.2.1]
    exact min_le_left _ _

/-- Counterexample for C10: the pending-touch commit does not re-check the
budget, so overlapping gestures break the 5-path bound — after four completed
mouse strokes (count 4), a single-finger touch start stores a pending touch, a
mouse-down (count still below 5) starts a fifth path, and the following
single-finger touch move commits the stale pending touch as a sixth path with
move count 6. -/
theorem budget_bound_violated_by_interleaving :
    (run ⟨-1000, ⟨0, 0⟩, false⟩ (initState ⟨-1000, ⟨0, 0⟩, false⟩)
      [Ev.mouseDown ⟨0, 0⟩ 0, Ev.mouseUp, Ev.mouseDown ⟨0, 0⟩ 0, Ev.mouseUp,
       Ev.mouseDown ⟨0, 0⟩ 0, Ev.mouseUp, Ev.mouseDown ⟨0, 0⟩ 0, Ev.mouseUp,
       Ev.touchStartOne ⟨0, 0⟩ 0, Ev.mouseDown ⟨0, 0⟩ 0,
       Ev.touchMoveOne ⟨0, 0⟩ 0 (1 / 2)]).paths.length = 6 ∧
    (run ⟨-1000, ⟨0, 0⟩, false⟩ (initState ⟨-1000, ⟨0, 0⟩, false⟩)
      [Ev.mouseDown ⟨0, 0⟩ 0, Ev.mouseUp, Ev.mouseDown ⟨0, 0⟩ 0, Ev.mouseUp,
       Ev.mouseDown ⟨0, 0⟩ 0, Ev.mouseUp, Ev.mouseDown ⟨0, 0⟩ 0, Ev.mouseUp,
       Ev.touchStartOne ⟨0, 0⟩ 0, Ev.mouseDown ⟨0, 0⟩ 0,
       Ev.touchMoveOne ⟨0, 0⟩ 0 (1 / 2)]).moveCount = 6 := by
  norm_num [run, step, handleMouseDown, handleMouseUp, finishStroke, handleTouchStartOne,
    handleTouchMoveOne, commitPending, extendStroke, appendToLast, eventPos, initState,
    defaultZoom, calculateStrokeWidth, preJitterWidth, euclid, segmentStamps, stampCount,
    lerp]

/-! ## C4: redraw vs. live rendering -/

/-- The stamp positions of one segment do not depend on the stroke width. -/
theorem segmentStamps_map_pos (a b : Point) (w w' : ℚ) :
    (segmentStamps a b w).map Stamp.pos = (segmentStamps a b w').map Stamp.pos := by
  simp [segmentStamps, List.map_map, Function.comp]

/-- Every stamp of one segment carries the given width. -/
theorem segmentStamps_width (a b : Point) (w : ℚ) :
    ∀ s ∈ segmentStamps a b w, s.width = w := by
  intro s hs
  simp only [segmentStamps, List.mem_map] at hs
  obtain ⟨i, -, rfl⟩ := hs
  rfl

/-- The redraw-segment stamp positions do not depend on the stroke width. -/
theorem redrawSegs_map_pos (prev : Point) (rest : List Point) (w w' : ℚ) :
    (redrawSegs prev rest w).map Stamp.pos = (redrawSegs prev rest w').map Stamp.pos := by
  induction rest generalizing prev with
  | nil => rfl
  | cons q qs ih =>
    simp only [redrawSegs, List.map_append]
    rw [segmentStamps_map_pos prev q w w', ih q]

/-- Appending a point to a stored path appends the stamps of exactly one
segment to its redraw. -/
theorem redrawSegs_concat (prev : Point) (rest : List Point) (pos : Point) (w : ℚ) :
    redrawSegs prev (rest ++ [pos]) w =
      redrawSegs prev rest w ++ segmentStamps (rest.getLastD prev) pos w := by
  induction rest generalizing prev with
  | nil => simp [redrawSegs]
  | cons q qs ih =>
    simp only [List.cons_append, redrawSegs, List.getLastD_cons, List.append_eq]
    rw [ih q, List.append_assoc]

theorem redrawSegs_width (prev : Point) (rest : List Point) (w : ℚ) :
    ∀ s ∈ redrawSegs prev rest w, s.width = w := by
  induction rest generalizing prev with
  | nil => intro s hs; simp [redrawSegs] at hs
  | cons q qs ih =>
    intro s hs
    simp only [redrawSegs, List.mem_append] at hs
    rcases hs with hs | hs
    · exact segmentStamps_width prev q w s hs
    · exact ih q s hs

/-- The single-stroke invariant maintained while a mouse gesture is drawing:
one stored path, the last recorded point tracked, and the redraw of the stored
history stamping at exactly the positions already stamped live. -/
def MouseInv (st : DrawState) : Prop :=
  st.isDrawing = true ∧
  ∃ p0 pts W, st.paths = [⟨p0 :: pts, W⟩] ∧
    st.lastPoint = some (pts.getLastD p0) ∧
    (redrawStamps st.paths).map Stamp.pos = st.stamps.map Stamp.pos

theorem mouseInv_move (st : DrawState) (c : Point) (n r : ℚ)
    (h : MouseInv st) : MouseInv (handleMouseMove st c n r) := by
  obtain ⟨hd, p0, pts, W, hpaths, hlp, hredraw⟩ := h
  unfold handleMouseMove
  rw [if_neg (by simp [hd])]
  unfold extendStroke
  rw [hlp]
  dsimp only
  refine ⟨hd, p0, pts ++ [eventPos st c],
    calculateStrokeWidth (euclid (pts.getLastD p0) (eventPos st c)) (n - st.lastTime) r,
    ?_, ?_, ?_⟩
  · rw [hpaths]
    simp [appendToLast]
  · rw [List.getLastD_concat]
  · rw [hpaths]
    simp only [appendToLast]
    rw [List.cons_append]
    simp only [redrawStamps, redrawPathStamps, List.map_cons, List.map_nil,
      List.flatten, List.append_nil, List.map_append]
    rw [redrawSegs_concat]
    simp only [List.map_append]
    rw [redrawSegs_map_pos p0 pts
        (calculateStrokeWidth (euclid (pts.getLastD p0) (eventPos st c)) (n - st.lastTime) r) W]
    have hre : (Stamp.pos ⟨p0, W⟩ :: (redrawSegs p0 pts W).map Stamp.pos) =
        st.stamps.map Stamp.pos := by
      have hthis := hredraw
      rw [hpaths] at hthis
      simp only [redrawStamps, redrawPathStamps, List.map_cons, List.map_nil,
        List.flatten, List.append_nil] at hthis
      exact hthis
    rw [← List.cons_append, hre]

theorem mouseInv_moves (cfg : Cfg) (ms : List (Point × ℚ × ℚ)) (st : DrawState)
    (h : MouseInv st) :
    MouseInv (run cfg st (ms.map fun m => Ev.mouseMove m.1 m.2.1 m.2.2)) := by
  induction ms generalizing st with
  | nil => exact h
  | cons m ms ih =>
    exact ih (handleMouseMove st m.1 m.2.1 m.2.2) (mouseInv_move st m.1 m.2.1 m.2.2 h)

/-- C4 (amended): for every single mouse gesture drawn from a fresh canvas, the
redraw of the stored path emits stamps at exactly the positions stamped live,
minus the cosmetic final release stamp (`redrawAll` re-invokes the same
stamping routine with the same spacing and scaling, in original order); but
every redraw stamp — including that of the first point — carries the single
stored final `strokeWidth` of the path, whereas the live rendering used
`BASE_WIDTH` for the first and final stamps and the speed-derived width of
each segment for its segment stamps. -/
theorem redraw_stamp_correspondence :
    (∀ cfg p0 t0 ms,
      (redrawStamps (run cfg (initState cfg)
          (gestureEvents (Gesture.mouse p0 t0 ms))).paths).map Stamp.pos =
        ((run cfg (initState cfg)
          (gestureEvents (Gesture.mouse p0 t0 ms))).stamps.map Stamp.pos).dropLast) ∧
    (∀ p : DrawPath, ∀ s ∈ redrawPathStamps p, s.width = p.strokeWidth) := by
  constructor
  · intro cfg p0 t0 ms
    simp only [gestureEvents]
    rw [run_append, run_cons cfg (initState cfg) (Ev.mouseDown p0 t0)]
    have hstart : MouseInv (step cfg (initState cfg) (Ev.mouseDown p0 t0)) := by
      show MouseInv (handleMouseDown (initState cfg) p0 t0)
      unfold handleMouseDown
      rw [if_neg (by norm_num [initState])]
      exact ⟨rfl, eventPos (initState cfg) p0, [], 10, rfl, rfl, rfl⟩
    have hmid := mouseInv_moves cfg ms _ hstart
    obtain ⟨hd, q0, qts, W, hpaths, hlp, hredraw⟩ := hmid
    show (redrawStamps (handleMouseUp _).paths).map Stamp.pos =
      ((handleMouseUp _).stamps.map Stamp.pos).dropLast
    unfold handleMouseUp finishStroke
    rw [hd, hlp]
    simp only [finishStroke_paths]
    rw [hredraw]
    simp [List.dropLast_concat]
  · intro p s hs
    unfold redrawPathStamps at hs
    rcases hmatch : p.points with _ | ⟨q0, qts⟩
    · rw [hmatch] at hs
      simp at hs
    · rw [hmatch] at hs
      rcases List.mem_cons.mp hs with rfl | hs2
      · rfl
      · exact redrawSegs_width q0 qts p.strokeWidth s hs2

/-- Witness for C4: the redraw of a one-point path of width 10 is a single
stamp of width 10. -/
theorem redraw_stamp_correspondence_witness :
    (⟨⟨0, 0⟩, 10⟩ : Stamp).width = (⟨[⟨0, 0⟩], 10⟩ : DrawPath).strokeWidth :=
  redraw_stamp_correspondence.2 ⟨[⟨0, 0⟩], 10⟩ ⟨⟨0, 0⟩, 10⟩
    (by simp [redrawPathStamps, redrawSegs])

/-- Counterexample for C4: with the jitter disabled (`rand = 1/2`), the stroke
`(0,0) → (16,0)` drawn in 4 ms gets segment width 6, which is stored as the
final `strokeWidth` of the path; the live canvas stamped the first point at width
10, so the redraw — which stamps the first point at the stored width 6 — is
not identical to the live rendering even after dropping the final release
stamp. -/
theorem redraw_differs_from_live :
    redrawStamps (run ⟨-1000, ⟨0, 0⟩, false⟩ (initState ⟨-1000, ⟨0, 0⟩, false⟩)
        [Ev.mouseDown ⟨0, 0⟩ 0, Ev.mouseMove ⟨16, 0⟩ 4 (1 / 2), Ev.mouseUp]).paths ≠
      ((run ⟨-1000, ⟨0, 0⟩, false⟩ (initState ⟨-1000, ⟨0, 0⟩, false⟩)
        [Ev.mouseDown ⟨0, 0⟩ 0, Ev.mouseMove ⟨16, 0⟩ 4 (1 / 2), Ev.mouseUp]).stamps).dropLast := by
  norm_num [run, step, handleMouseDown, handleMouseMove, handleMouseUp, finishStroke,
    extendStroke, appendToLast, eventPos, initState, defaultZoom, calculateStrokeWidth,
    preJitterWidth, euclid, segmentStamps, stampCount, lerp, redrawStamps,
    redrawPathStamps, redrawSegs]
  norm_num [List.range_succ, List.dropLast, Stamp.mk.injEq, Point.mk.injEq]

/-- Counterexample for C6: two coincident touch points store an inter-finger
distance of exactly `0` and put the drawing component into panning mode; the
next two-finger move then passes the null-guard and performs the ratio-zoom
division with a zero divisor (in this `ℚ` model `x / 0 = 0`, so the zoom drops
to the clamp floor `3/10`; in JavaScript the division yields `Infinity`/`NaN`
instead of being skipped).  So the claim that the update is skipped rather
than divided by a zero stored distance is false. -/
theorem pinch_zero_distance_reachable :
    ((step ⟨-1000, ⟨0, 0⟩, false⟩ (initState ⟨-1000, ⟨0, 0⟩, false⟩)
        (Ev.touchStartTwo ⟨100, 100⟩ ⟨100, 100⟩)).isPanning = true ∧
      (step ⟨-1000, ⟨0, 0⟩, false⟩ (initState ⟨-1000, ⟨0, 0⟩, false⟩)
        (Ev.touchStartTwo ⟨100, 100⟩ ⟨100, 100⟩)).lastTouchDistance = some 0) ∧
    (step ⟨-1000, ⟨0, 0⟩, false⟩
      (step ⟨-1000, ⟨0, 0⟩, false⟩ (initState ⟨-1000, ⟨0, 0⟩, false⟩)
        (Ev.touchStartTwo ⟨100, 100⟩ ⟨100, 100⟩))
      (Ev.touchMoveTwo ⟨130, 100⟩ ⟨160, 100⟩)).zoom = 3 / 10 := by
  refine ⟨⟨rfl, ?_⟩, ?_⟩
  · show (handleTouchStartTwo (initState ⟨-1000, ⟨0, 0⟩, false⟩) ⟨100, 100⟩ ⟨100, 100⟩).lastTouchDistance = some 0
    norm_num [handleTouchStartTwo, touchDistance, euclid]
  · norm_num [step, handleTouchStartTwo, handleTouchMoveTwo, initState, defaultZoom,
      touchDistance, euclid, touchCenter, drawClampZoom]

end Shapes
